import Mathlib

/-!
Shallow embedding of the POE2 Twister/Salvo/Barrage calculator core
(`src/main.js`, first/richest variant) over exact rational arithmetic.

Modelling conventions:
* JS `number` is modelled as `ℚ` (exact rationals); counts are `ℕ`,
  behaviour budgets `ℤ` (they are decremented).
* The transcendental primitives of the JS runtime (`Math.cos`, `Math.sin`,
  `Math.atan2`, `Math.sqrt`, `Math.PI`) have no computable counterpart on
  `ℚ`, so they are supplied as an explicit `JsMath` record of rational
  functions.  Theorems only rely on them through explicitly stated
  hypotheses (for example that the supplied square root really squares to
  its argument at the relevant value).  `Math.hypot dx dy` is modelled as
  `sqrt (dx*dx + dy*dy)`.
* `Math.random()` draws are supplied explicitly: a list of pre-drawn
  angles for projectile emission and a single draw for the fork chance.
* Map-valued state (`castTargetLocks`, `completedCastInstances`) is
  modelled as total/partial functions with pointwise update, which is
  exactly the observable behaviour of a JS `Map` with `get(key) || 0`
  resp. `get`/`has`.
* Fields of `Projectile` that carry no simulation logic (the random
  display `id`, the `casterRef` back-pointer, the `wander` object whose
  intensity is hard-wired to 0) are omitted.
-/

/-- The transcendental primitives of the JS `Math` object, supplied as
rational-valued functions (see module docstring). -/
structure JsMath where
  cos : ℚ → ℚ
  sin : ℚ → ℚ
  atan2 : ℚ → ℚ → ℚ
  sqrt : ℚ → ℚ
  pi : ℚ

/-- `const TWO_PI = Math.PI * 2` (src/main.js:4). -/
def TWO_PI (M : JsMath) : ℚ := M.pi * 2

/-- `const DEG_TO_RAD = Math.PI / 180` (src/main.js:5). -/
def DEG_TO_RAD (M : JsMath) : ℚ := M.pi / 180

/-- `const FORK_ANGLE_RAD = 60 * DEG_TO_RAD` (src/main.js:6). -/
def FORK_ANGLE_RAD (M : JsMath) : ℚ := 60 * DEG_TO_RAD M

/-- `function clamp(value, min, max) { return Math.max(min, Math.min(max, value)); }`
(src/main.js:8). -/
def clamp (value lo hi : ℚ) : ℚ := max lo (min hi value)

/-- `const PER_CAST_TARGET_COOLDOWN = 0.66` seconds (src/main.js:378). -/
def PER_CAST_TARGET_COOLDOWN : ℚ := 0.66

/-- `const ARENA_RADIUS_UNITS = 160` (src/main.js:381). -/
def ARENA_RADIUS_UNITS : ℚ := 160

/-- `const BOSS_RADIUS_UNITS = 3` (src/main.js:382). -/
def BOSS_RADIUS_UNITS : ℚ := 3

/-- `const PROJ_RADIUS_UNITS = 0.5` (src/main.js:384). -/
def PROJ_RADIUS_UNITS : ℚ := 0.5

/-- `sweptCircleHitT` (src/main.js:239-258): earliest `t ∈ [0,1]` for a
moving circle against a target circle of combined radius `R`.  The call
`Math.sqrt(disc)` is `sqrt disc` for the supplied `sqrt`. -/
def sweptCircleHitT (sqrt : ℚ → ℚ) (px py dx dy cx cy R : ℚ) : Option ℚ :=
  let mx := px - cx
  let my := py - cy
  let a := dx * dx + dy * dy
  let b := 2 * (dx * mx + dy * my)
  let c := mx * mx + my * my - R * R
  if c ≤ 0 then some 0
  else if a = 0 then none
  else
    let disc := b * b - 4 * a * c
    if disc < 0 then none
    else
      let s := sqrt disc
      let t1 := (-b - s) / (2 * a)
      let t2 := (-b + s) / (2 * a)
      if 0 ≤ t1 ∧ t1 ≤ 1 then some t1
      else if 0 ≤ t2 ∧ t2 ≤ 1 then some t2
      else none

/-- The local `a = d·d` of `sweptCircleHitT`. -/
def sweptA (dx dy : ℚ) : ℚ := dx * dx + dy * dy

/-- The local `b = 2 d·(p−c)` of `sweptCircleHitT`. -/
def sweptB (px py dx dy cx cy : ℚ) : ℚ := 2 * (dx * (px - cx) + dy * (py - cy))

/-- The local `c = |p−c|² − R²` of `sweptCircleHitT`. -/
def sweptC (px py cx cy R : ℚ) : ℚ :=
  (px - cx) * (px - cx) + (py - cy) * (py - cy) - R * R

/-- The local `disc = b² − 4ac` of `sweptCircleHitT`. -/
def sweptDisc (px py dx dy cx cy R : ℚ) : ℚ :=
  sweptB px py dx dy cx cy * sweptB px py dx dy cx cy -
    4 * sweptA dx dy * sweptC px py cx cy R

/-- `Math.sign` on rationals. -/
def signQ (q : ℚ) : ℚ := if q < 0 then -1 else if 0 < q then 1 else 0

/-- Result record of `sweptCircleSegmentTOI`: `{t, nx, ny}`. -/
structure SegTOI where
  t : ℚ
  nx : ℚ
  ny : ℚ
  deriving DecidableEq

/-- `sweptCircleSegmentTOI` (src/main.js:316-375): exact time of impact for
a moving circle against a capsule segment.  `Math.hypot(x, y)` is modelled
as `sqrt (x*x + y*y)`. -/
def sweptCircleSegmentTOI (sqrt : ℚ → ℚ) (p0x p0y dx dy ax ay bx by_ r : ℚ) :
    Option SegTOI :=
  let ux := bx - ax
  let uy := by_ - ay
  let L := sqrt (ux * ux + uy * uy)
  if L = 0 then
    match sweptCircleHitT sqrt p0x p0y dx dy ax ay r with
    | none => none
    | some tCircle =>
      let px := p0x + dx * tCircle
      let py := p0y + dy * tCircle
      let h := sqrt ((px - ax) * (px - ax) + (py - ay) * (py - ay))
      let nx := (px - ax) / (if h = 0 then 1 else h)
      let ny := (py - ay) / (if h = 0 then 1 else h)
      some ⟨tCircle, nx, ny⟩
  else
    let unx := ux / L
    let uny := uy / L
    let nx0 := -uny
    let ny0 := unx
    let p0n := nx0 * (p0x - ax) + ny0 * (p0y - ay)
    let dn := nx0 * dx + ny0 * dy
    let EPS : ℚ := 1e-9
    let stripCand : ℚ → List SegTOI := fun sgn =>
      if EPS < |dn| then
        let t := (sgn * r - p0n) / dn
        if -EPS ≤ t ∧ t ≤ 1 + EPS then
          let px := p0x + dx * t
          let py := p0y + dy * t
          let s := unx * (px - ax) + uny * (py - ay)
          if -EPS ≤ s ∧ s ≤ L + EPS then
            let normSign := signQ (nx0 * (px - ax) + ny0 * (py - ay))
            let nx := if 0 ≤ normSign then nx0 else -nx0
            let ny := if 0 ≤ normSign then ny0 else -ny0
            [⟨max 0 (min 1 t), nx, ny⟩]
          else []
        else []
      else []
    let capCand : ℚ → ℚ → List SegTOI := fun ccx ccy =>
      match sweptCircleHitT sqrt p0x p0y dx dy ccx ccy r with
      | none => []
      | some tC =>
        if 0 ≤ tC ∧ tC ≤ 1 then
          let px := p0x + dx * tC
          let py := p0y + dy * tC
          let vax := px - ccx
          let vay := py - ccy
          let len0 := sqrt (vax * vax + vay * vay)
          let len := if len0 = 0 then 1 else len0
          [⟨tC, vax / len, vay / len⟩]
        else []
    let candidates := stripCand 1 ++ stripCand (-1) ++ capCand ax ay ++ capCand bx by_
    match candidates with
    | [] => none
    | c :: cs => some (cs.foldl (fun best cand => if cand.t < best.t then cand else best) c)

/-- A caster/boss entity: position and radius (`class Entity`,
src/main.js:625-636; colour and drag state are rendering-only). -/
structure Entity where
  x : ℚ
  y : ℚ
  r : ℚ
  deriving DecidableEq

/-- The result object of `collideCircle` in the hit case:
`{hit: true, nx, ny, reflect, x, y}`; the no-hit case `{hit:false}` is
modelled as `none`. -/
structure CollideResult where
  nx : ℚ
  ny : ℚ
  reflect : Bool
  x : ℚ
  y : ℚ
  deriving DecidableEq

/-- `CircleArena` geometry (constructor, src/main.js:480-486):
`center = (width/2, height/2)`, `radius = ARENA_RADIUS_UNITS * scale`. -/
structure CircleArena where
  centerX : ℚ
  centerY : ℚ
  radius : ℚ
  deriving DecidableEq

/-- `new CircleArena(width, height, scale)` (src/main.js:481-486). -/
def mkCircleArena (width height scale : ℚ) : CircleArena :=
  ⟨width / 2, height / 2, ARENA_RADIUS_UNITS * scale⟩

/-- `CircleArena.collideCircle` (src/main.js:487-498).  `Math.hypot` is
`sqrt` of the sum of squares.  NOTE: in Lean, `x / 0 = 0`; in JS the
corresponding `dx / dist` with `dist = 0` yields `NaN` — the predicate
`CircleArena.normalDivisionByZero` below records exactly when that
unguarded division has a zero divisor. -/
def CircleArena.collideCircle (A : CircleArena) (sqrt : ℚ → ℚ) (x y r : ℚ) :
    Option CollideResult :=
  let dx := x - A.centerX
  let dy := y - A.centerY
  let dist := sqrt (dx * dx + dy * dy)
  let limit := A.radius - r
  if limit < dist then
    let nx := dx / dist
    let ny := dy / dist
    let px := A.centerX + nx * limit
    let py := A.centerY + ny * limit
    some ⟨nx, ny, true, px, py⟩
  else none

/-- Records that `CircleArena.collideCircle` reaches its `dx / dist`
normal computation (the `dist > limit` branch) with divisor `dist = 0`:
in JS this produces `NaN`. -/
def CircleArena.normalDivisionByZero (A : CircleArena) (sqrt : ℚ → ℚ)
    (x y r : ℚ) : Prop :=
  let dx := x - A.centerX
  let dy := y - A.centerY
  let dist := sqrt (dx * dx + dy * dy)
  A.radius - r < dist ∧ dist = 0

instance (A : CircleArena) (sqrt : ℚ → ℚ) (x y r : ℚ) :
    Decidable (A.normalDivisionByZero sqrt x y r) := by
  unfold CircleArena.normalDivisionByZero; infer_instance

/-- One wall segment `{x1, y1, x2, y2}` of the T-junction arena. -/
structure Segment where
  x1 : ℚ
  y1 : ℚ
  x2 : ℚ
  y2 : ℚ
  deriving DecidableEq

/-- The wall-segment list built by the `TJunctionArena` constructor
(src/main.js:543-593). -/
def mkTJunctionSegments (width height scale : ℚ) : List Segment :=
  let cx := width / 2
  let cy := height / 2
  let stemWidthU : ℚ := 100
  let stemHeightU : ℚ := 260
  let barWidthU : ℚ := 320
  let barHeightU : ℚ := 80
  let targetHUnits := ARENA_RADIUS_UNITS * 2
  let tHeightUnits := stemHeightU + barHeightU
  let fitFactor := min 1 (targetHUnits / tHeightUnits)
  let sW := stemWidthU * scale * fitFactor
  let sH := stemHeightU * scale * fitFactor
  let bW := barWidthU * scale * fitFactor
  let bH := barHeightU * scale * fitFactor
  let connectY := cy - sH / 2
  let barCenterY := connectY
  let barTopY := barCenterY - bH / 2
  let barBotY := barCenterY + bH / 2
  let stemLeftX := cx - sW / 2
  let stemRightX := cx + sW / 2
  let stemBotY := cy + sH / 2
  let barLeftX := cx - bW / 2
  let barRightX := cx + bW / 2
  [⟨stemLeftX, barBotY, stemLeftX, stemBotY⟩,
   ⟨stemRightX, barBotY, stemRightX, stemBotY⟩,
   ⟨stemLeftX, stemBotY, stemRightX, stemBotY⟩,
   ⟨barLeftX, barTopY, barRightX, barTopY⟩,
   ⟨barLeftX, barBotY, stemLeftX, barBotY⟩,
   ⟨stemRightX, barBotY, barRightX, barBotY⟩,
   ⟨barLeftX, barTopY, barLeftX, barBotY⟩,
   ⟨barRightX, barTopY, barRightX, barBotY⟩]

/-- The squared length `vLen2 = vx*vx + vy*vy` of a wall segment — the
divisor of the projection `(w·v)/vLen2` in `TJunctionArena.collideCircle`
(src/main.js:599-600), which the source does NOT guard with an epsilon or
a fallback. -/
def Segment.vLen2 (s : Segment) : ℚ :=
  (s.x2 - s.x1) * (s.x2 - s.x1) + (s.y2 - s.y1) * (s.y2 - s.y1)

/-- `TJunctionArena.collideCircle` (src/main.js:595-609): first segment
whose distance to the query circle centre is below `r` produces a
correction; `d || 1` guards the normal division, while `/vLen2` is
unguarded. -/
def tJunctionCollideCircle (sqrt : ℚ → ℚ) (segments : List Segment)
    (x y r : ℚ) : Option CollideResult :=
  segments.findSome? fun s =>
    let vx := s.x2 - s.x1
    let vy := s.y2 - s.y1
    let wx := x - s.x1
    let wy := y - s.y1
    let vLen2 := vx * vx + vy * vy
    let t := clamp ((wx * vx + wy * vy) / vLen2) 0 1
    let cx := s.x1 + t * vx
    let cy := s.y1 + t * vy
    let dx := x - cx
    let dy := y - cy
    let d := sqrt (dx * dx + dy * dy)
    if d < r then
      let nx := dx / (if d = 0 then 1 else d)
      let ny := dy / (if d = 0 then 1 else d)
      some ⟨nx, ny, true, cx + nx * r, cy + ny * r⟩
    else none

/-- The `config` object handed to `new Projectile(config)`
(src/main.js:641-668). -/
structure ProjConfig where
  castId : ℕ
  instanceId : ℕ
  barrageRepeatIndex : ℕ
  x : ℚ
  y : ℚ
  angle : ℚ
  speed : ℚ
  now : ℚ
  duration : ℚ
  pierceCount : ℤ
  forkTimes : ℤ
  chainCount : ℤ
  splitCount : ℤ
  twisterRadius : ℚ
  salvoGroup : ℕ
  damageMultiplier : Option ℚ
  deriving DecidableEq

/-- `class Projectile` (src/main.js:640-694).  The random display `id`,
`casterRef` and the inert `wander` object are omitted (see module
docstring). -/
structure Projectile where
  castId : ℕ
  instanceId : ℕ
  barrageRepeatIndex : ℕ
  x : ℚ
  y : ℚ
  vx : ℚ
  vy : ℚ
  speed : ℚ
  angle : ℚ
  twisterRadiusUnits : ℚ
  radius : ℚ
  spawnTime : ℚ
  duration : ℚ
  pierceRemaining : ℤ
  forkRemaining : ℤ
  chainRemaining : ℤ
  splitCount : ℤ
  hasSplit : Bool
  salvoGroup : ℕ
  damageMultiplier : ℚ
  deriving DecidableEq

/-- The `Projectile` constructor (src/main.js:641-668).  `scale` is the
ambient `window.__currentScale`; `vx = cos(angle)·speed`,
`vy = sin(angle)·speed`; `config.twisterRadius || PROJ_RADIUS_UNITS`
defaults a zero (falsy) radius; `config.damageMultiplier !== undefined`
is the `Option` match. -/
def mkProjectile (M : JsMath) (scale : ℚ) (c : ProjConfig) : Projectile :=
  { castId := c.castId
    instanceId := c.instanceId
    barrageRepeatIndex := c.barrageRepeatIndex
    x := c.x
    y := c.y
    vx := M.cos c.angle * c.speed
    vy := M.sin c.angle * c.speed
    speed := c.speed
    angle := c.angle
    twisterRadiusUnits := if c.twisterRadius = 0 then PROJ_RADIUS_UNITS else c.twisterRadius
    radius := (if c.twisterRadius = 0 then PROJ_RADIUS_UNITS else c.twisterRadius) * scale
    spawnTime := c.now
    duration := c.duration
    pierceRemaining := c.pierceCount
    forkRemaining := c.forkTimes
    chainRemaining := c.chainCount
    splitCount := c.splitCount
    hasSplit := false
    salvoGroup := c.salvoGroup
    damageMultiplier := c.damageMultiplier.getD 1 }

/-- `Projectile.age(now) = (now - spawnTime) / 1000` (src/main.js:669),
seconds from a millisecond clock. -/
def Projectile.age (p : Projectile) (now : ℚ) : ℚ := (now - p.spawnTime) / 1000

/-- `Projectile.isExpired(now)` (src/main.js:670-673): strict
`age > duration`, and `duration >= 0` (negative duration never expires). -/
def Projectile.isExpired (p : Projectile) (now : ℚ) : Bool :=
  if p.duration < p.age now ∧ 0 ≤ p.duration then true else false

/-- `Projectile.reflect(nx, ny)` (src/main.js:679-685): mirror the
velocity about the contact normal and recompute `angle` via
`Math.atan2`. -/
def Projectile.reflect (M : JsMath) (p : Projectile) (nx ny : ℚ) : Projectile :=
  let vdotn := p.vx * nx + p.vy * ny
  let vx2 := p.vx - 2 * vdotn * nx
  let vy2 := p.vy - 2 * vdotn * ny
  { p with vx := vx2, vy := vy2, angle := M.atan2 vy2 vx2 }

/-- The configuration structure read by `readConfigFromDOM`
(src/main.js:869-901); `arenaType` is a UI concern and omitted.  Counts
that the code only uses as loop bounds or thresholds are `ℕ`, behaviour
budgets are `ℤ`, everything else `ℚ`. -/
structure Config where
  avgHit : ℚ
  increasedProjSpeed : ℚ
  projectileCount : ℚ
  whirlwindStages : ℕ
  twisterRadius : ℚ
  duration : ℚ
  pierceCount : ℤ
  forkTimes : ℤ
  chainCount : ℤ
  splitCount : ℤ
  forkChance : ℚ
  bossRadius : ℚ
  maxSeals : ℕ
  salvoSealCount : ℕ
  barrageCount : ℕ
  barrageTimeInterval : ℚ
  timeBetweenBarrageRepeats : ℚ
  baseSealGainFrequency : ℚ
  baseProjSpeed : ℚ
  increasedSealGainFrequency : ℚ
  deriving DecidableEq

/-- The hit-group cooldown key
`instanceId + '|' + barrageRepeatIndex + '|' + salvoGroup + '|' + targetId`
(src/main.js:1196-1198), modelled as the tuple the string encodes. -/
structure HitKey where
  instanceId : ℕ
  barrageRepeatIndex : ℕ
  salvoGroup : ℕ
  targetId : String
  deriving DecidableEq

/-- The key of a projectile against the single target `'boss'`
(src/main.js:1197-1198). -/
def hitKey (p : Projectile) : HitKey :=
  ⟨p.instanceId, p.barrageRepeatIndex, p.salvoGroup, "boss"⟩

/-- One entry of `completedCastInstances`:
`{ hits, projCount, completed }` (src/main.js:1156). -/
structure InstanceEntry where
  hits : ℕ
  projCount : ℕ
  completed : Bool
  deriving DecidableEq

/-- One scheduled barrage repeat
`{time, castId, instanceId, barrageRepeatIndex, sealCount, angles}`
(src/main.js:1179-1186). -/
structure ScheduledBarrage where
  time : ℚ
  castId : ℕ
  instanceId : ℕ
  barrageRepeatIndex : ℕ
  sealCount : ℕ
  angles : Option (List ℚ)
  deriving DecidableEq

/-- The slice of `Simulation` state that the cast scheduler, hit-group
ledger and collision resolver read and write (constructor,
src/main.js:697-786).  `castTargetLocks` is a total function — the JS
`Map.get(key) || 0` default is the initial value `fun k => 0`. -/
structure SimState where
  scale : ℚ
  config : Config
  caster : Entity
  boss : Entity
  projectiles : List Projectile
  currentSeals : ℕ
  barrageCastSchedule : List ScheduledBarrage
  hitsTotal : ℕ
  totalDamage : ℚ
  hitTimestamps : List ℚ
  castTargetLocks : HitKey → ℚ
  currentInstanceId : Option ℕ
  currentCastHits : ℕ
  completedCastInstances : ℕ → Option InstanceEntry
  nextCastId : ℕ

/-- `Simulation.tryApplyHit(proj, now)` (src/main.js:1194-1221).
Granted iff `now ≥ nextAllowedTime(key)`; on grant it bumps the global
and per-instance counters, records damage
`avgHit * (proj.damageMultiplier || 1.0)`, pushes the timestamp and sets
`nextAllowedTime(key) = now + PER_CAST_TARGET_COOLDOWN * 1000`
(milliseconds).  Returns `(granted, newState)`. -/
def tryApplyHit (s : SimState) (proj : Projectile) (now : ℚ) : Bool × SimState :=
  let key := hitKey proj
  let nextOk := s.castTargetLocks key
  if nextOk ≤ now then
    let damage := s.config.avgHit *
      (if proj.damageMultiplier = 0 then 1 else proj.damageMultiplier)
    let currentCastHits2 :=
      if some proj.instanceId = s.currentInstanceId then s.currentCastHits + 1
      else s.currentCastHits
    let instances2 : ℕ → Option InstanceEntry := fun k =>
      if k = proj.instanceId then
        (s.completedCastInstances proj.instanceId).map
          (fun e => { e with hits := max e.hits currentCastHits2 })
      else s.completedCastInstances k
    (true,
     { s with
        hitsTotal := s.hitsTotal + 1
        totalDamage := s.totalDamage + damage
        hitTimestamps := s.hitTimestamps ++ [now]
        currentCastHits := currentCastHits2
        completedCastInstances := instances2
        castTargetLocks := fun k =>
          if k = key then now + PER_CAST_TARGET_COOLDOWN * 1000
          else s.castTargetLocks k })
  else (false, s)

/-- `Simulation.applySplit(proj, nowTs)` (src/main.js:789-814): spawn
`max(1, splitCount)` children evenly spaced over `2π`, each with
`splitCount: 0`, inheriting the remaining pierce/fork/chain budgets and
the remaining duration; the caller removes the parent. -/
def applySplit (M : JsMath) (s : SimState) (proj : Projectile) (nowTs : ℚ) : SimState :=
  let n := (max 1 proj.splitCount).toNat
  let children := (List.range n).map fun (i : ℕ) =>
    mkProjectile M s.scale
      { castId := proj.castId
        instanceId := proj.instanceId
        barrageRepeatIndex := proj.barrageRepeatIndex
        x := proj.x
        y := proj.y
        angle := ((i : ℚ) / (n : ℚ)) * TWO_PI M
        speed := proj.speed
        now := nowTs
        duration := max 0 (proj.duration - proj.age nowTs)
        pierceCount := proj.pierceRemaining
        forkTimes := proj.forkRemaining
        chainCount := proj.chainRemaining
        splitCount := 0
        twisterRadius := s.config.twisterRadius
        salvoGroup := proj.salvoGroup
        damageMultiplier := some proj.damageMultiplier }
  { s with projectiles := s.projectiles ++ children }

/-- `Simulation.applyPierce(proj, dx, dy, d)` (src/main.js:816-822):
decrement the pierce budget and nudge `proj.x` (only `x` — the source
computes `ny` but never applies it) just outside the boss rim.  `d || 1`
guards the divisor. -/
def applyPierce (boss : Entity) (proj : Projectile) (dx _dy d : ℚ) : Projectile :=
  let nx := dx / (if d = 0 then 1 else d)
  { proj with
      pierceRemaining := proj.pierceRemaining - 1
      x := boss.x + nx * (boss.r + proj.radius + 0.5) }

/-- `Simulation.applyFork(proj, nowTs)` (src/main.js:824-850): spawn two
children at ±60° from the current heading, plus — when the supplied
`Math.random()*100` draw is below `forkChance` — a third straight child;
children carry `forkTimes − 1` and `splitCount: 0`. -/
def applyFork (M : JsMath) (rand : ℚ) (s : SimState) (proj : Projectile) (nowTs : ℚ) :
    SimState :=
  let base := M.atan2 proj.vy proj.vx
  let childAngles :=
    [base + FORK_ANGLE_RAD M, base - FORK_ANGLE_RAD M] ++
      (if rand * 100 < s.config.forkChance then [base] else [])
  let children := childAngles.map fun a =>
    mkProjectile M s.scale
      { castId := proj.castId
        instanceId := proj.instanceId
        barrageRepeatIndex := proj.barrageRepeatIndex
        x := proj.x
        y := proj.y
        angle := a
        speed := proj.speed
        now := nowTs
        duration := max 0 (proj.duration - proj.age nowTs)
        pierceCount := proj.pierceRemaining
        forkTimes := proj.forkRemaining - 1
        chainCount := proj.chainRemaining
        splitCount := 0
        twisterRadius := s.config.twisterRadius
        salvoGroup := proj.salvoGroup
        damageMultiplier := some proj.damageMultiplier }
  { s with projectiles := s.projectiles ++ children }

/-- `Simulation.applyChain(proj, dx, dy, d)` (src/main.js:852-858):
with no alternate target, behave like pierce — guarded decrement of the
chain budget and the same `x`-only outward nudge. -/
def applyChain (boss : Entity) (proj : Projectile) (dx _dy d : ℚ) : Projectile :=
  let nx := dx / (if d = 0 then 1 else d)
  { proj with
      chainRemaining :=
        if 0 < proj.chainRemaining then proj.chainRemaining - 1 else proj.chainRemaining
      x := boss.x + nx * (boss.r + proj.radius + 0.5) }

/-- The five mutually exclusive things a granted target hit can do
(src/main.js:1254-1278). -/
inductive HitBehavior
  | split
  | pierce
  | fork
  | chain
  | absorb
  deriving DecidableEq

/-- The `'keep' | 'remove'` outcome strings of the collision handlers. -/
inductive Outcome
  | keep
  | remove
  deriving DecidableEq

/-- Return value of `handleProjectileEnemyCollision`: the outcome string,
the (possibly mutated) projectile, the (possibly mutated) simulation
state, and which of the five behaviours fired (`none` when no granted hit
occurred).  The behaviour tag records which of the five syntactically
exclusive `return` paths of src/main.js:1254-1278 was taken. -/
structure CollisionResult where
  outcome : Outcome
  proj : Projectile
  state : SimState
  behavior : Option HitBehavior

/-- `Simulation.handleProjectileEnemyCollision(proj, now)`
(src/main.js:1247-1284).  `d` is `Math.hypot(dx, dy)`; `now` is the
substep collision clock passed to `tryApplyHit`, while `perfNow` is the
`performance.now()` the source hands to `applySplit`/`applyFork`. -/
def handleProjectileEnemyCollision (M : JsMath) (rand : ℚ) (s : SimState)
    (proj : Projectile) (now perfNow : ℚ) : CollisionResult :=
  let dx := proj.x - s.boss.x
  let dy := proj.y - s.boss.y
  let d := M.sqrt (dx * dx + dy * dy)
  if d ≤ proj.radius + s.boss.r then
    let res := tryApplyHit s proj now
    let s1 := res.2
    if res.1 then
      if ¬proj.hasSplit ∧ 0 < proj.splitCount then
        let projSplit := { proj with hasSplit := true }
        ⟨Outcome.remove, projSplit, applySplit M s1 projSplit perfNow, some HitBehavior.split⟩
      else if 0 < proj.pierceRemaining then
        ⟨Outcome.keep, applyPierce s1.boss proj dx dy d, s1, some HitBehavior.pierce⟩
      else if 0 < proj.forkRemaining then
        ⟨Outcome.remove, proj, applyFork M rand s1 proj perfNow, some HitBehavior.fork⟩
      else if 0 < proj.chainRemaining then
        ⟨Outcome.keep, applyChain s1.boss proj dx dy d, s1, some HitBehavior.chain⟩
      else
        ⟨Outcome.remove, proj, s1, some HitBehavior.absorb⟩
    else
      ⟨Outcome.keep, proj, s1, none⟩
  else
    ⟨Outcome.keep, proj, s, none⟩

/-- The claim's fixed priority order — first applicable behaviour wins:
split (only if not already split and `splitCount > 0`), then pierce, then
fork, then chain, else absorb. -/
def priorityBehavior (p : Projectile) : HitBehavior :=
  if ¬p.hasSplit ∧ 0 < p.splitCount then HitBehavior.split
  else if 0 < p.pierceRemaining then HitBehavior.pierce
  else if 0 < p.forkRemaining then HitBehavior.fork
  else if 0 < p.chainRemaining then HitBehavior.chain
  else HitBehavior.absorb

/-- Return record `{ angles, projCount }` of `emitCastProjectiles`
(src/main.js:1142-1144). -/
structure EmitResult where
  angles : Option (List ℚ)
  projCount : ℕ
  deriving DecidableEq

/-- `Simulation.emitCastProjectiles(castId, now, barrageRepeatIndex,
sealCount, angles, instanceId)` (src/main.js:1058-1145).  `randAngles`
supplies the `randRange(0, TWO_PI)` draws consumed when `angles` is null
(indexed in draw order).  Fires `1 + whirlwindStages` base projectiles in
salvo group 0, then 2 per seal in groups `1..sealCount`; every projectile
gets damage multiplier
`(barrageRepeatIndex > 0 ? 0.55 : 1.0) * (1 + 0.8 * whirlwindStages)`. -/
def emitCastProjectiles (M : JsMath) (s : SimState) (castId : ℕ) (now : ℚ)
    (barrageRepeatIndex : ℕ) (sealCount : Option ℕ) (angles : Option (List ℚ))
    (instanceId : ℕ) (randAngles : List ℚ) : SimState × EmitResult :=
  let cfg := s.config
  let projectilesPerSeal : ℕ := 2
  let baseCount := 1 + cfg.whirlwindStages
  let actualSealCount := sealCount.getD s.currentSeals
  let increasePercent := cfg.increasedProjSpeed / 100
  let effectiveSpeed :=
    (if cfg.baseProjSpeed = 0 then 75 else cfg.baseProjSpeed) * (1 + increasePercent)
  let whirlwindDamageMultiplier : ℚ := 1 + (cfg.whirlwindStages : ℚ) * 0.8
  let barrageMultiplier : ℚ := if 0 < barrageRepeatIndex then 0.55 else 1
  let damageMultiplier := barrageMultiplier * whirlwindDamageMultiplier
  let angleAt : ℕ → ℚ := fun idx =>
    match angles with
    | some l => l.getD idx 0
    | none => randAngles.getD idx 0
  let mkAt : ℕ → ℕ → Projectile := fun idx group =>
    mkProjectile M s.scale
      { castId := castId
        instanceId := instanceId
        barrageRepeatIndex := barrageRepeatIndex
        x := s.caster.x
        y := s.caster.y
        angle := angleAt idx
        speed := effectiveSpeed * s.scale
        now := now
        duration := cfg.duration
        pierceCount := cfg.pierceCount
        forkTimes := cfg.forkTimes
        chainCount := cfg.chainCount
        splitCount := cfg.splitCount
        twisterRadius := cfg.twisterRadius
        salvoGroup := group
        damageMultiplier := some damageMultiplier }
  let baseProjs := (List.range baseCount).map fun i => mkAt i 0
  let sealProjs := (List.range actualSealCount).flatMap fun sealIdx =>
    (List.range projectilesPerSeal).map fun i =>
      mkAt (baseCount + sealIdx * projectilesPerSeal + i) (sealIdx + 1)
  let used := baseCount + actualSealCount * projectilesPerSeal
  let captured :=
    if barrageRepeatIndex = 0 ∧ angles = none then
      some ((List.range used).map fun i => angleAt i)
    else none
  ({ s with projectiles := s.projectiles ++ baseProjs ++ sealProjs },
   { angles := captured, projCount := used })

/-- `Simulation.emitCast(now)` (src/main.js:1147-1192): allocate the
instance id (`nextCastId++`), register the instance, emit the main cast,
add its projectile count, schedule `barrageCount` repeats at
`timeBetweenRepeats * repeatIndex` seconds (`|| 0.15` default) with fresh
cast ids, the captured angles and the current seal count, then consume
all seals. -/
def emitCast (M : JsMath) (s : SimState) (now : ℚ) (randAngles : List ℚ) : SimState :=
  let cfg := s.config
  let castId := s.nextCastId
  let instanceId := castId
  let s1 := { s with
    nextCastId := s.nextCastId + 1
    currentInstanceId := some instanceId
    currentCastHits := 0
    completedCastInstances := fun k =>
      if k = instanceId then some ⟨0, 0, false⟩ else s.completedCastInstances k }
  let res := emitCastProjectiles M s1 castId now 0 none none instanceId randAngles
  let s2 := res.1
  let castResult := res.2
  let s3 := { s2 with
    completedCastInstances := fun k =>
      if k = instanceId then
        (s2.completedCastInstances instanceId).map
          (fun (e : InstanceEntry) => { e with projCount := e.projCount + castResult.projCount })
      else s2.completedCastInstances k }
  let s4 :=
    if 0 < cfg.barrageCount then
      let timeBetweenRepeats :=
        if cfg.timeBetweenBarrageRepeats = 0 then 0.15
        else cfg.timeBetweenBarrageRepeats
      let castSealCount := s3.currentSeals
      let newEntries := (List.range cfg.barrageCount).map fun (j : ℕ) =>
        ({ time := now + timeBetweenRepeats * ((j : ℚ) + 1) * 1000
           castId := s3.nextCastId + j
           instanceId := instanceId
           barrageRepeatIndex := j + 1
           sealCount := castSealCount
           angles := castResult.angles } : ScheduledBarrage)
      { s3 with
          barrageCastSchedule := s3.barrageCastSchedule ++ newEntries
          nextCastId := s3.nextCastId + cfg.barrageCount }
    else s3
  { s4 with currentSeals := 0 }

/-- Firing one due scheduled barrage repeat (src/main.js:1319-1325):
re-emit with the stored cast id, scheduled time, repeat index, seal count
and captured angles, then add the emission's projectile count to the
owning instance's running total. -/
def fireScheduledBarrage (M : JsMath) (s : SimState) (e : ScheduledBarrage)
    (randAngles : List ℚ) : SimState :=
  let res := emitCastProjectiles M s e.castId e.time e.barrageRepeatIndex
    (some e.sealCount) e.angles e.instanceId randAngles
  let s1 := res.1
  if (s1.completedCastInstances e.instanceId).isSome then
    { s1 with
        completedCastInstances := fun k =>
          if k = e.instanceId then
            (s1.completedCastInstances e.instanceId).map
              (fun (en : InstanceEntry) => { en with projCount := en.projCount + res.2.projCount })
          else s1.completedCastInstances k }
  else s1

/-- The scheduled-barrage sweep of `Simulation.step` (src/main.js:1316-1328):
every entry with `now >= scheduled.time` fires and is spliced out.  The
source iterates from the back of the array, so due entries fire in
reverse schedule order; the remaining schedule keeps its order. -/
def processBarrageSchedule (M : JsMath) (s : SimState) (now : ℚ)
    (randAngles : List ℚ) : SimState :=
  let due := (s.barrageCastSchedule.filter fun e => decide (e.time ≤ now)).reverse
  let rest := s.barrageCastSchedule.filter fun e => ¬ decide (e.time ≤ now)
  due.foldl (fun st e => fireScheduledBarrage M st e randAngles)
    { s with barrageCastSchedule := rest }

/-- Processing a list of hit attempts `(projectile, time)` through
`tryApplyHit` in order, threading the state. -/
def runHits : SimState → List (Projectile × ℚ) → SimState
  | s, [] => s
  | s, (p, t) :: rest => runHits (tryApplyHit s p t).2 rest

/-- The granted hits — key and time — produced by a list of hit attempts,
in processing order. -/
def grantedEvents : SimState → List (Projectile × ℚ) → List (HitKey × ℚ)
  | _, [] => []
  | s, (p, t) :: rest =>
    (if (tryApplyHit s p t).1 then [(hitKey p, t)] else []) ++
      grantedEvents (tryApplyHit s p t).2 rest

/-- The granted hit times on one fixed key, in processing order. -/
def grantedTimes (s : SimState) (trace : List (Projectile × ℚ)) (k : HitKey) : List ℚ :=
  (grantedEvents s trace).filterMap fun e => if e.1 = k then some e.2 else none

/-- A concrete `JsMath` instance for witnesses: `Rat.sqrt` is exact on
perfect squares, the trigonometric entries are arbitrary rational stubs
(no witness depends on their values), and `pi` is a rational surrogate. -/
def sampleMath : JsMath :=
  { cos := fun _ => 1
    sin := fun _ => 0
    atan2 := fun _ _ => 0
    sqrt := Rat.sqrt
    pi := 3.14159 }

/-- A concrete configuration for witnesses: 1 whirlwind stage, 2 barrage
repeats, 0.15 s between repeats, pierce-only behaviour budgets. -/
def sampleConfig : Config :=
  { avgHit := 100
    increasedProjSpeed := 0
    projectileCount := 1
    whirlwindStages := 1
    twisterRadius := 0.5
    duration := 2
    pierceCount := 999
    forkTimes := 0
    chainCount := 0
    splitCount := 0
    forkChance := 0
    bossRadius := 3
    maxSeals := 4
    salvoSealCount := 1
    barrageCount := 2
    barrageTimeInterval := 0.3
    timeBetweenBarrageRepeats := 0.15
    baseSealGainFrequency := 2
    baseProjSpeed := 75
    increasedSealGainFrequency := 0 }

/-- A concrete simulation state for witnesses: fresh ledger, one seal
accumulated, empty schedule, boss at (200, 100). -/
def sampleState : SimState :=
  { scale := 1
    config := sampleConfig
    caster := ⟨100, 100, 3⟩
    boss := ⟨200, 100, 3⟩
    projectiles := []
    currentSeals := 1
    barrageCastSchedule := []
    hitsTotal := 0
    totalDamage := 0
    hitTimestamps := []
    castTargetLocks := fun _ => 0
    currentInstanceId := none
    currentCastHits := 0
    completedCastInstances := fun _ => none
    nextCastId := 1 }

/-- `sampleState` with every hit-group key still on cooldown until
t = 1000 ms (for the denied-hit witness). -/
def sampleStateLocked : SimState :=
  { sampleState with castTargetLocks := fun _ => 1000 }

/-- A concrete projectile sitting exactly on the boss of `sampleState`
(distance 0), built through the `Projectile` constructor. -/
def projAtBoss : Projectile :=
  mkProjectile sampleMath 1
    { castId := 1
      instanceId := 1
      barrageRepeatIndex := 0
      x := 200
      y := 100
      angle := 0
      speed := 75
      now := 0
      duration := 2
      pierceCount := 2
      forkTimes := 0
      chainCount := 0
      splitCount := 0
      twisterRadius := 0.5
      salvoGroup := 0
      damageMultiplier := none }

/-- C7: terrain reflection is elastic — for every velocity `(vx, vy)` and
every unit contact normal `(nx, ny)`, `Projectile.reflect` preserves the
speed magnitude exactly over the rationals/reals, changing only the
direction. -/
theorem C7_reflect_preserves_speed (M : JsMath) (p : Projectile) (nx ny : ℚ)
    (h : nx * nx + ny * ny = 1) :
    (p.reflect M nx ny).vx ^ 2 + (p.reflect M nx ny).vy ^ 2 = p.vx ^ 2 + p.vy ^ 2 ∧
    Real.sqrt (((p.reflect M nx ny).vx ^ 2 + (p.reflect M nx ny).vy ^ 2 : ℚ) : ℝ) =
      Real.sqrt ((p.vx ^ 2 + p.vy ^ 2 : ℚ) : ℝ) := by
  have hvx : (p.reflect M nx ny).vx = p.vx - 2 * (p.vx * nx + p.vy * ny) * nx := rfl
  have hvy : (p.reflect M nx ny).vy = p.vy - 2 * (p.vx * nx + p.vy * ny) * ny := rfl
  have hsq : (p.reflect M nx ny).vx ^ 2 + (p.reflect M nx ny).vy ^ 2 =
      p.vx ^ 2 + p.vy ^ 2 := by
    rw [hvx, hvy]
    linear_combination (4 * (p.vx * nx + p.vy * ny) ^ 2) * h
  exact ⟨hsq, by rw [hsq]⟩

/-- C7 witness: reflecting the sample projectile about the unit normal
(3/5, 4/5) preserves its squared speed. -/
theorem C7_reflect_preserves_speed_witness :
    (projAtBoss.reflect sampleMath (3 / 5) (4 / 5)).vx ^ 2 +
        (projAtBoss.reflect sampleMath (3 / 5) (4 / 5)).vy ^ 2 =
      projAtBoss.vx ^ 2 + projAtBoss.vy ^ 2 ∧
    Real.sqrt (((projAtBoss.reflect sampleMath (3 / 5) (4 / 5)).vx ^ 2 +
        (projAtBoss.reflect sampleMath (3 / 5) (4 / 5)).vy ^ 2 : ℚ) : ℝ) =
      Real.sqrt ((projAtBoss.vx ^ 2 + projAtBoss.vy ^ 2 : ℚ) : ℝ) :=
  C7_reflect_preserves_speed sampleMath projAtBoss (3 / 5) (4 / 5) (by norm_num)

/-- C8 counterexample: a projectile whose age exactly equals its duration
(spawned at 0 ms, duration 2 s, queried at 2000 ms) is NOT expired —
`isExpired` uses a strict `>`, so the claim's "age == duration exactly is
expired" is false on the code. -/
theorem C8_counterexample :
    projAtBoss.age 2000 = projAtBoss.duration ∧ projAtBoss.isExpired 2000 = false := by
  constructor
  · norm_num [Projectile.age, projAtBoss, mkProjectile]
  · norm_num [Projectile.isExpired, Projectile.age, projAtBoss, mkProjectile]

/-- C8 (amended): a projectile is expired iff its age strictly exceeds a
nonnegative duration; at `age == duration` it is NOT expired; a negative
duration never expires regardless of age. -/
theorem C8_expiry_boundary (p : Projectile) (now : ℚ) :
    (p.isExpired now = true ↔ p.duration < p.age now ∧ 0 ≤ p.duration) ∧
    (p.age now = p.duration → p.isExpired now = false) ∧
    (p.duration < 0 → p.isExpired now = false) := by
  unfold Projectile.isExpired
  refine ⟨?_, ?_, ?_⟩
  · split_ifs with h
    · simp [h]
    · simp [h]
  · intro hEq
    split_ifs with h
    · exfalso
      have h1 := h.1
      rw [hEq] at h1
      exact lt_irrefl _ h1
    · rfl
  · intro hneg
    split_ifs with h
    · exact absurd h.2 (not_le.mpr hneg)
    · rfl

/-- C8 witness: at 2500 ms the sample projectile (duration 2 s, spawned
at 0 ms) is expired, via the amended boundary characterisation. -/
theorem C8_expiry_boundary_witness : projAtBoss.isExpired 2500 = true :=
  (C8_expiry_boundary projAtBoss 2500).1.mpr
    ⟨by norm_num [Projectile.age, projAtBoss, mkProjectile],
     by norm_num [projAtBoss, mkProjectile]⟩

/-- `tryApplyHit` grants exactly when the key's next-allowed time is at
most `now`. -/
theorem tryApplyHit_fst_iff (s : SimState) (p : Projectile) (now : ℚ) :
    (tryApplyHit s p now).1 = true ↔ s.castTargetLocks (hitKey p) ≤ now := by
  by_cases h : s.castTargetLocks (hitKey p) ≤ now <;>
    simp [tryApplyHit, h]

/-- A denied `tryApplyHit` returns `false` and the state unchanged. -/
theorem tryApplyHit_denied (s : SimState) (p : Projectile) (now : ℚ)
    (h : ¬ s.castTargetLocks (hitKey p) ≤ now) :
    tryApplyHit s p now = (false, s) := by
  simp only [tryApplyHit]
  rw [if_neg h]

/-- A granted `tryApplyHit` sets the key's lock to
`now + PER_CAST_TARGET_COOLDOWN * 1000` and leaves other keys alone. -/
theorem tryApplyHit_granted_locks (s : SimState) (p : Projectile) (now : ℚ)
    (h : s.castTargetLocks (hitKey p) ≤ now) (k : HitKey) :
    (tryApplyHit s p now).2.castTargetLocks k =
      if k = hitKey p then now + PER_CAST_TARGET_COOLDOWN * 1000
      else s.castTargetLocks k := by
  simp only [tryApplyHit]
  rw [if_pos h]

/-- `tryApplyHit` never touches the projectile list. -/
theorem tryApplyHit_projectiles (s : SimState) (p : Projectile) (now : ℚ) :
    (tryApplyHit s p now).2.projectiles = s.projectiles := by
  by_cases h : s.castTargetLocks (hitKey p) ≤ now <;>
    simp [tryApplyHit, h]

/-- `tryApplyHit` never moves the boss. -/
theorem tryApplyHit_boss (s : SimState) (p : Projectile) (now : ℚ) :
    (tryApplyHit s p now).2.boss = s.boss := by
  by_cases h : s.castTargetLocks (hitKey p) ≤ now <;>
    simp [tryApplyHit, h]

/-- C4: a target collision whose hit is denied by the cooldown ledger
changes nothing — `tryApplyHit` returns `false` with the state (counters,
damage, timestamps, per-instance entries, ledger, projectile list)
unchanged, no behaviour fires, and the projectile survives unmodified. -/
theorem C4_denied_hit_no_state_change (M : JsMath) (rand : ℚ) (s : SimState)
    (proj : Projectile) (now perfNow : ℚ)
    (hcol : M.sqrt ((proj.x - s.boss.x) * (proj.x - s.boss.x) +
        (proj.y - s.boss.y) * (proj.y - s.boss.y)) ≤ proj.radius + s.boss.r)
    (hdeny : now < s.castTargetLocks (hitKey proj)) :
    handleProjectileEnemyCollision M rand s proj now perfNow =
      ⟨Outcome.keep, proj, s, none⟩ ∧
    tryApplyHit s proj now = (false, s) := by
  have hfalse : tryApplyHit s proj now = (false, s) :=
    tryApplyHit_denied s proj now (not_le.mpr hdeny)
  refine ⟨?_, hfalse⟩
  simp only [handleProjectileEnemyCollision, hfalse]
  rw [if_pos hcol]
  simp

/-- C4 witness: the sample projectile sits on the boss (distance 0 ≤
combined radius) while every key is locked until t = 1000 ms; at
t = 500 ms the collision resolves to keep/unchanged/no-behaviour. -/
theorem C4_denied_hit_no_state_change_witness :
    handleProjectileEnemyCollision sampleMath 0 sampleStateLocked projAtBoss 500 500 =
      ⟨Outcome.keep, projAtBoss, sampleStateLocked, none⟩ ∧
    tryApplyHit sampleStateLocked projAtBoss 500 = (false, sampleStateLocked) :=
  C4_denied_hit_no_state_change sampleMath 0 sampleStateLocked projAtBoss 500 500
    (by norm_num [projAtBoss, mkProjectile, sampleStateLocked, sampleState, sampleMath,
      PROJ_RADIUS_UNITS, Rat.sqrt])
    (by norm_num [sampleStateLocked, sampleState, hitKey])

/-- `tryApplyHit` never changes the configuration. -/
theorem tryApplyHit_config (s : SimState) (p : Projectile) (now : ℚ) :
    (tryApplyHit s p now).2.config = s.config := by
  by_cases h : s.castTargetLocks (hitKey p) ≤ now <;>
    simp [tryApplyHit, h]

/-- `applySplit` appends exactly `max 1 splitCount` children. -/
theorem applySplit_length (M : JsMath) (s : SimState) (proj : Projectile) (nowTs : ℚ) :
    (applySplit M s proj nowTs).projectiles.length =
      s.projectiles.length + (max 1 proj.splitCount).toNat := by
  simp only [applySplit]
  rw [List.length_append, List.length_map, List.length_range]

/-- `applyFork` appends three children when the fork-chance draw succeeds,
two otherwise. -/
theorem applyFork_length (M : JsMath) (rand : ℚ) (s : SimState) (proj : Projectile)
    (nowTs : ℚ) :
    (applyFork M rand s proj nowTs).projectiles.length =
      s.projectiles.length + (if rand * 100 < s.config.forkChance then 3 else 2) := by
  simp only [applyFork, List.length_append, List.length_map]
  split_ifs <;> simp

/-- C3: on a granted target hit, exactly one of split/pierce/fork/chain/
absorb fires, chosen in the fixed priority order split (only if not
already split and `splitCount > 0`), then pierce, then fork, then chain,
else absorb — first applicable wins; the per-behaviour effects confirm
the other behaviours did not also fire. -/
theorem C3_behavior_exclusive (M : JsMath) (rand : ℚ) (s : SimState)
    (proj : Projectile) (now perfNow : ℚ)
    (hcol : M.sqrt ((proj.x - s.boss.x) * (proj.x - s.boss.x) +
        (proj.y - s.boss.y) * (proj.y - s.boss.y)) ≤ proj.radius + s.boss.r)
    (hgrant : s.castTargetLocks (hitKey proj) ≤ now) :
    ((handleProjectileEnemyCollision M rand s proj now perfNow).behavior =
        some (priorityBehavior proj)) ∧
    (priorityBehavior proj = HitBehavior.split →
      (handleProjectileEnemyCollision M rand s proj now perfNow).outcome = Outcome.remove ∧
      (handleProjectileEnemyCollision M rand s proj now perfNow).proj.pierceRemaining =
        proj.pierceRemaining ∧
      (handleProjectileEnemyCollision M rand s proj now perfNow).proj.hasSplit = true ∧
      (handleProjectileEnemyCollision M rand s proj now perfNow).state.projectiles.length =
        s.projectiles.length + (max 1 proj.splitCount).toNat) ∧
    (priorityBehavior proj = HitBehavior.pierce →
      (handleProjectileEnemyCollision M rand s proj now perfNow).outcome = Outcome.keep ∧
      (handleProjectileEnemyCollision M rand s proj now perfNow).proj.pierceRemaining =
        proj.pierceRemaining - 1 ∧
      (handleProjectileEnemyCollision M rand s proj now perfNow).proj.chainRemaining =
        proj.chainRemaining ∧
      (handleProjectileEnemyCollision M rand s proj now perfNow).proj.hasSplit =
        proj.hasSplit ∧
      (handleProjectileEnemyCollision M rand s proj now perfNow).state.projectiles =
        s.projectiles) ∧
    (priorityBehavior proj = HitBehavior.fork →
      (handleProjectileEnemyCollision M rand s proj now perfNow).outcome = Outcome.remove ∧
      (handleProjectileEnemyCollision M rand s proj now perfNow).proj = proj ∧
      (handleProjectileEnemyCollision M rand s proj now perfNow).state.projectiles.length =
        s.projectiles.length + (if rand * 100 < s.config.forkChance then 3 else 2)) ∧
    (priorityBehavior proj = HitBehavior.chain →
      (handleProjectileEnemyCollision M rand s proj now perfNow).outcome = Outcome.keep ∧
      (handleProjectileEnemyCollision M rand s proj now perfNow).proj.chainRemaining =
        proj.chainRemaining - 1 ∧
      (handleProjectileEnemyCollision M rand s proj now perfNow).proj.pierceRemaining =
        proj.pierceRemaining ∧
      (handleProjectileEnemyCollision M rand s proj now perfNow).state.projectiles =
        s.projectiles) ∧
    (priorityBehavior proj = HitBehavior.absorb →
      (handleProjectileEnemyCollision M rand s proj now perfNow).outcome = Outcome.remove ∧
      (handleProjectileEnemyCollision M rand s proj now perfNow).proj = proj ∧
      (handleProjectileEnemyCollision M rand s proj now perfNow).state.projectiles =
        s.projectiles) := by
  have htrue : (tryApplyHit s proj now).1 = true :=
    (tryApplyHit_fst_iff s proj now).mpr hgrant
  have hproj : (tryApplyHit s proj now).2.projectiles = s.projectiles :=
    tryApplyHit_projectiles s proj now
  have hcfg : (tryApplyHit s proj now).2.config = s.config :=
    tryApplyHit_config s proj now
  have hred : handleProjectileEnemyCollision M rand s proj now perfNow =
      (if ¬proj.hasSplit ∧ 0 < proj.splitCount then
        ⟨Outcome.remove, { proj with hasSplit := true },
          applySplit M (tryApplyHit s proj now).2 { proj with hasSplit := true } perfNow,
          some HitBehavior.split⟩
      else if 0 < proj.pierceRemaining then
        ⟨Outcome.keep, applyPierce (tryApplyHit s proj now).2.boss proj (proj.x - s.boss.x)
            (proj.y - s.boss.y)
            (M.sqrt ((proj.x - s.boss.x) * (proj.x - s.boss.x) +
              (proj.y - s.boss.y) * (proj.y - s.boss.y))),
          (tryApplyHit s proj now).2, some HitBehavior.pierce⟩
      else if 0 < proj.forkRemaining then
        ⟨Outcome.remove, proj, applyFork M rand (tryApplyHit s proj now).2 proj perfNow,
          some HitBehavior.fork⟩
      else if 0 < proj.chainRemaining then
        ⟨Outcome.keep, applyChain (tryApplyHit s proj now).2.boss proj (proj.x - s.boss.x)
            (proj.y - s.boss.y)
            (M.sqrt ((proj.x - s.boss.x) * (proj.x - s.boss.x) +
              (proj.y - s.boss.y) * (proj.y - s.boss.y))),
          (tryApplyHit s proj now).2, some HitBehavior.chain⟩
      else
        ⟨Outcome.remove, proj, (tryApplyHit s proj now).2, some HitBehavior.absorb⟩) := by
    simp only [handleProjectileEnemyCollision, htrue, if_pos hcol, if_true]
  by_cases h1 : ¬proj.hasSplit ∧ 0 < proj.splitCount
  · have hpb : priorityBehavior proj = HitBehavior.split := by
      unfold priorityBehavior
      rw [if_pos h1]
    rw [hred, if_pos h1, hpb]
    refine ⟨rfl, fun _ => ⟨rfl, rfl, rfl, ?_⟩, ?_, ?_, ?_, ?_⟩
    · rw [applySplit_length, hproj]
    · intro hco
      exact absurd hco (by decide)
    · intro hco
      exact absurd hco (by decide)
    · intro hco
      exact absurd hco (by decide)
    · intro hco
      exact absurd hco (by decide)
  · by_cases h2 : 0 < proj.pierceRemaining
    · have hpb : priorityBehavior proj = HitBehavior.pierce := by
        unfold priorityBehavior
        rw [if_neg h1, if_pos h2]
      rw [hred, if_neg h1, if_pos h2, hpb]
      refine ⟨rfl, ?_, fun _ => ⟨rfl, ?_, ?_, ?_, hproj⟩, ?_, ?_, ?_⟩
      · intro hco
        exact absurd hco (by decide)
      · simp [applyPierce]
      · simp [applyPierce]
      · simp [applyPierce]
      · intro hco
        exact absurd hco (by decide)
      · intro hco
        exact absurd hco (by decide)
      · intro hco
        exact absurd hco (by decide)
    · by_cases h3 : 0 < proj.forkRemaining
      · have hpb : priorityBehavior proj = HitBehavior.fork := by
          unfold priorityBehavior
          rw [if_neg h1, if_neg h2, if_pos h3]
        rw [hred, if_neg h1, if_neg h2, if_pos h3, hpb]
        refine ⟨rfl, ?_, ?_, fun _ => ⟨rfl, rfl, ?_⟩, ?_, ?_⟩
        · intro hco
          exact absurd hco (by decide)
        · intro hco
          exact absurd hco (by decide)
        · rw [applyFork_length, hproj, hcfg]
        · intro hco
          exact absurd hco (by decide)
        · intro hco
          exact absurd hco (by decide)
      · by_cases h4 : 0 < proj.chainRemaining
        · have hpb : priorityBehavior proj = HitBehavior.chain := by
            unfold priorityBehavior
            rw [if_neg h1, if_neg h2, if_neg h3, if_pos h4]
          rw [hred, if_neg h1, if_neg h2, if_neg h3, if_pos h4, hpb]
          refine ⟨rfl, ?_, ?_, ?_, fun _ => ⟨rfl, ?_, ?_, hproj⟩, ?_⟩
          · intro hco
            exact absurd hco (by decide)
          · intro hco
            exact absurd hco (by decide)
          · intro hco
            exact absurd hco (by decide)
          · simp [applyChain, h4]
          · simp [applyChain]
          · intro hco
            exact absurd hco (by decide)
        · have hpb : priorityBehavior proj = HitBehavior.absorb := by
            unfold priorityBehavior
            rw [if_neg h1, if_neg h2, if_neg h3, if_neg h4]
          rw [hred, if_neg h1, if_neg h2, if_neg h3, if_neg h4, hpb]
          refine ⟨rfl, ?_, ?_, ?_, ?_, fun _ => ⟨rfl, rfl, hproj⟩⟩
          · intro hco
            exact absurd hco (by decide)
          · intro hco
            exact absurd hco (by decide)
          · intro hco
            exact absurd hco (by decide)
          · intro hco
            exact absurd hco (by decide)

/-- C3 witness: the sample projectile (pierce budget 2, no other budgets)
collides with the boss of `sampleState` at distance 0 with a fresh
ledger; the pierce behaviour — and only it — fires. -/
theorem C3_behavior_exclusive_witness :
    (handleProjectileEnemyCollision sampleMath 0 sampleState projAtBoss 0 0).behavior =
      some (priorityBehavior projAtBoss) ∧
    priorityBehavior projAtBoss = HitBehavior.pierce :=
  ⟨(C3_behavior_exclusive sampleMath 0 sampleState projAtBoss 0 0
      (by norm_num [projAtBoss, mkProjectile, sampleState, sampleMath,
        PROJ_RADIUS_UNITS, Rat.sqrt])
      (by norm_num [sampleState, hitKey])).1,
   by norm_num [priorityBehavior, projAtBoss, mkProjectile]⟩

/-- C10: every child spawned by the split or fork behaviours carries
`splitCount = 0`, and a projectile with no split budget can never take
the split branch of the collision handler — so split cascades are
impossible even though children inherit the remaining pierce/fork/chain
budgets. -/
theorem C10_split_children_never_split (M : JsMath) (rand : ℚ) (s : SimState)
    (proj : Projectile) (nowTs : ℚ) :
    (∀ p ∈ (applySplit M s proj nowTs).projectiles,
      p ∈ s.projectiles ∨ p.splitCount = 0) ∧
    (∀ p ∈ (applyFork M rand s proj nowTs).projectiles,
      p ∈ s.projectiles ∨ p.splitCount = 0) ∧
    (proj.splitCount ≤ 0 → ∀ now perfNow : ℚ,
      (handleProjectileEnemyCollision M rand s proj now perfNow).behavior ≠
        some HitBehavior.split) := by
  refine ⟨?_, ?_, ?_⟩
  · intro p hp
    simp only [applySplit] at hp
    rcases List.mem_append.mp hp with hold | hnew
    · exact Or.inl hold
    · right
      rcases List.mem_map.mp hnew with ⟨i, _, rfl⟩
      rfl
  · intro p hp
    simp only [applyFork] at hp
    rcases List.mem_append.mp hp with hold | hnew
    · exact Or.inl hold
    · right
      rcases List.mem_map.mp hnew with ⟨a, _, rfl⟩
      rfl
  · intro hle now perfNow
    have hnosplit : ¬ (¬proj.hasSplit ∧ 0 < proj.splitCount) := by
      intro hco
      exact absurd hco.2 (not_lt.mpr hle)
    simp only [handleProjectileEnemyCollision]
    split_ifs with hd hg <;> simp_all

/-- C10 witness: the sample projectile has split budget 0; its single
split child (were split forced) has `splitCount = 0`, and the collision
handler never reports the split behaviour for it. -/
theorem C10_split_children_never_split_witness :
    (∀ p ∈ (applySplit sampleMath sampleState projAtBoss 0).projectiles,
      p ∈ sampleState.projectiles ∨ p.splitCount = 0) ∧
    (handleProjectileEnemyCollision sampleMath 0 sampleState projAtBoss 0 0).behavior ≠
      some HitBehavior.split :=
  ⟨(C10_split_children_never_split sampleMath 0 sampleState projAtBoss 0).1,
   (C10_split_children_never_split sampleMath 0 sampleState projAtBoss 0).2.2
      (by norm_num [projAtBoss, mkProjectile]) 0 0⟩

/-- Scaled factorisation of the collision quadratic: for any `s` with
`s² = b² − 4ac`, `(2au + b − s)(2au + b + s) = 4a(au² + bu + c)`. -/
theorem quad_factor_scaled (a b c s u : ℚ) (hsq : s * s = b * b - 4 * a * c) :
    (2 * a * u + b - s) * (2 * a * u + b + s) = 4 * a * (a * u ^ 2 + b * u + c) := by
  linear_combination (-1 : ℚ) * hsq

/-- The two closed-form candidates of `sweptCircleHitT` are the only
roots of the collision quadratic. -/
theorem quad_roots_complete (a b c s u : ℚ) (ha : a ≠ 0)
    (hsq : s * s = b * b - 4 * a * c) (hu : a * u ^ 2 + b * u + c = 0) :
    u = (-b - s) / (2 * a) ∨ u = (-b + s) / (2 * a) := by
  have h4 := quad_factor_scaled a b c s u hsq
  rw [hu, mul_zero] at h4
  have h2a : (2 : ℚ) * a ≠ 0 := by
    intro h
    apply ha
    linarith [h]
  rcases mul_eq_zero.mp h4 with h | h
  · right
    field_simp
    linear_combination h
  · left
    field_simp
    linear_combination h

/-- The smaller closed-form candidate `(−b − s)/(2a)` is a root of the
collision quadratic. -/
theorem quad_root_t1 (a b c s : ℚ) (ha : a ≠ 0) (hsq : s * s = b * b - 4 * a * c) :
    a * ((-b - s) / (2 * a)) ^ 2 + b * ((-b - s) / (2 * a)) + c = 0 := by
  have h2a : (2 : ℚ) * a ≠ 0 := by
    intro h
    apply ha
    linarith [h]
  have hts : 2 * a * ((-b - s) / (2 * a)) = -b - s := by
    field_simp
  have h4 := quad_factor_scaled a b c s ((-b - s) / (2 * a)) hsq
  rw [hts] at h4
  have hzero : (4 : ℚ) * a *
      (a * ((-b - s) / (2 * a)) ^ 2 + b * ((-b - s) / (2 * a)) + c) = 0 := by
    rw [← h4]
    ring
  have h4a : (4 : ℚ) * a ≠ 0 := by
    intro h
    apply ha
    linarith [h]
  rcases mul_eq_zero.mp hzero with h | h
  · exact absurd h h4a
  · exact h

/-- The larger closed-form candidate `(−b + s)/(2a)` is a root of the
collision quadratic. -/
theorem quad_root_t2 (a b c s : ℚ) (ha : a ≠ 0) (hsq : s * s = b * b - 4 * a * c) :
    a * ((-b + s) / (2 * a)) ^ 2 + b * ((-b + s) / (2 * a)) + c = 0 := by
  have h2a : (2 : ℚ) * a ≠ 0 := by
    intro h
    apply ha
    linarith [h]
  have hts : 2 * a * ((-b + s) / (2 * a)) = -b + s := by
    field_simp
  have h4 := quad_factor_scaled a b c s ((-b + s) / (2 * a)) hsq
  rw [hts] at h4
  have hzero : (4 : ℚ) * a *
      (a * ((-b + s) / (2 * a)) ^ 2 + b * ((-b + s) / (2 * a)) + c) = 0 := by
    rw [← h4]
    ring
  have h4a : (4 : ℚ) * a ≠ 0 := by
    intro h
    apply ha
    linarith [h]
  rcases mul_eq_zero.mp hzero with h | h
  · exact absurd h h4a
  · exact h

/-- `sweptCircleHitT` written with the named locals
`sweptA`/`sweptB`/`sweptC`/`sweptDisc`. -/
theorem sweptCircleHitT_eq (sq : ℚ → ℚ) (px py dx dy cx cy R : ℚ) :
    sweptCircleHitT sq px py dx dy cx cy R =
      (if sweptC px py cx cy R ≤ 0 then some 0
       else if sweptA dx dy = 0 then none
       else if sweptDisc px py dx dy cx cy R < 0 then none
       else if 0 ≤ (-(sweptB px py dx dy cx cy) - sq (sweptDisc px py dx dy cx cy R)) /
              (2 * sweptA dx dy) ∧
            (-(sweptB px py dx dy cx cy) - sq (sweptDisc px py dx dy cx cy R)) /
              (2 * sweptA dx dy) ≤ 1 then
         some ((-(sweptB px py dx dy cx cy) - sq (sweptDisc px py dx dy cx cy R)) /
           (2 * sweptA dx dy))
       else if 0 ≤ (-(sweptB px py dx dy cx cy) + sq (sweptDisc px py dx dy cx cy R)) /
              (2 * sweptA dx dy) ∧
            (-(sweptB px py dx dy cx cy) + sq (sweptDisc px py dx dy cx cy R)) /
              (2 * sweptA dx dy) ≤ 1 then
         some ((-(sweptB px py dx dy cx cy) + sq (sweptDisc px py dx dy cx cy R)) /
           (2 * sweptA dx dy))
       else none) := rfl

/-- The root-selection tail of `sweptCircleHitT`: whichever candidate the
two range checks return is the smallest root of the collision quadratic
inside `[0, 1]`. -/
theorem swept_roots_spec (A B C S : ℚ) (hA : 0 < A) (hS : 0 ≤ S)
    (hsq : S * S = B * B - 4 * A * C) (t : ℚ)
    (ht : (if 0 ≤ (-B - S) / (2 * A) ∧ (-B - S) / (2 * A) ≤ 1 then
            some ((-B - S) / (2 * A))
          else if 0 ≤ (-B + S) / (2 * A) ∧ (-B + S) / (2 * A) ≤ 1 then
            some ((-B + S) / (2 * A))
          else none) = some t) :
    0 ≤ t ∧ t ≤ 1 ∧ A * t ^ 2 + B * t + C = 0 ∧
      ∀ u : ℚ, 0 ≤ u → u ≤ 1 → A * u ^ 2 + B * u + C = 0 → t ≤ u := by
  have hAne : A ≠ 0 := ne_of_gt hA
  have h2A : (0 : ℚ) < 2 * A := by linarith
  have ht1le : (-B - S) / (2 * A) ≤ (-B + S) / (2 * A) :=
    (div_le_div_iff_of_pos_right h2A).mpr (by linarith)
  by_cases h1 : 0 ≤ (-B - S) / (2 * A) ∧ (-B - S) / (2 * A) ≤ 1
  · rw [if_pos h1] at ht
    injection ht with ht
    subst ht
    refine ⟨h1.1, h1.2, quad_root_t1 A B C S hAne hsq, ?_⟩
    intro u hu0 hu1 hur
    rcases quad_roots_complete A B C S u hAne hsq hur with rfl | rfl
    · exact le_refl _
    · exact ht1le
  · rw [if_neg h1] at ht
    by_cases h2 : 0 ≤ (-B + S) / (2 * A) ∧ (-B + S) / (2 * A) ≤ 1
    · rw [if_pos h2] at ht
      injection ht with ht
      subst ht
      refine ⟨h2.1, h2.2, quad_root_t2 A B C S hAne hsq, ?_⟩
      intro u hu0 hu1 hur
      rcases quad_roots_complete A B C S u hAne hsq hur with rfl | rfl
      · exact absurd ⟨hu0, hu1⟩ h1
      · exact le_refl _
    · rw [if_neg h2] at ht
      exact absurd ht (by simp)

/-- C6: `sweptCircleHitT` with zero displacement returns `some 0` iff the
start point is already within the combined radius (else `none`); `some 0`
is returned immediately whenever the start overlaps; and in the
non-overlapping case any returned `t` lies in `[0, 1]` and is the
smallest root of the collision quadratic in `[0, 1]`.  The hypothesis
pins the supplied `sqrt` to a true square root of the discriminant when
the discriminant is nonnegative (the only case in which the source calls
`Math.sqrt`). -/
theorem C6_swept_circle_toi (sq : ℚ → ℚ) (px py dx dy cx cy R : ℚ)
    (hs : 0 ≤ sweptDisc px py dx dy cx cy R →
      0 ≤ sq (sweptDisc px py dx dy cx cy R) ∧
        sq (sweptDisc px py dx dy cx cy R) * sq (sweptDisc px py dx dy cx cy R) =
          sweptDisc px py dx dy cx cy R) :
    ((dx = 0 ∧ dy = 0) →
      sweptCircleHitT sq px py dx dy cx cy R =
        (if (px - cx) * (px - cx) + (py - cy) * (py - cy) ≤ R * R then some 0
         else none)) ∧
    (sweptC px py cx cy R ≤ 0 → sweptCircleHitT sq px py dx dy cx cy R = some 0) ∧
    (∀ t : ℚ, sweptCircleHitT sq px py dx dy cx cy R = some t →
      0 ≤ t ∧ t ≤ 1 ∧
      (0 < sweptC px py cx cy R →
        sweptA dx dy * t ^ 2 + sweptB px py dx dy cx cy * t + sweptC px py cx cy R = 0 ∧
        ∀ u : ℚ, 0 ≤ u → u ≤ 1 →
          sweptA dx dy * u ^ 2 + sweptB px py dx dy cx cy * u + sweptC px py cx cy R = 0 →
          t ≤ u)) := by
  have hciff : sweptC px py cx cy R ≤ 0 ↔
      (px - cx) * (px - cx) + (py - cy) * (py - cy) ≤ R * R := by
    unfold sweptC
    constructor <;> intro h <;> linarith
  refine ⟨?_, ?_, ?_⟩
  · rintro ⟨rfl, rfl⟩
    rw [sweptCircleHitT_eq]
    by_cases hc : sweptC px py cx cy R ≤ 0
    · rw [if_pos hc, if_pos (hciff.mp hc)]
    · rw [if_neg hc, if_neg (fun h => hc (hciff.mpr h)),
        if_pos (show sweptA 0 0 = 0 by unfold sweptA; ring)]
  · intro hc
    rw [sweptCircleHitT_eq, if_pos hc]
  · intro t ht
    rw [sweptCircleHitT_eq] at ht
    by_cases hc : sweptC px py cx cy R ≤ 0
    · rw [if_pos hc] at ht
      have ht0 : t = 0 := by
        injection ht with h
        exact h.symm
      subst ht0
      exact ⟨le_refl 0, by norm_num, fun hpos => absurd hpos (not_lt.mpr hc)⟩
    · rw [if_neg hc] at ht
      by_cases hA : sweptA dx dy = 0
      · rw [if_pos hA] at ht
        exact absurd ht (by simp)
      · rw [if_neg hA] at ht
        by_cases hdisc : sweptDisc px py dx dy cx cy R < 0
        · rw [if_pos hdisc] at ht
          exact absurd ht (by simp)
        · rw [if_neg hdisc] at ht
          obtain ⟨hs0, hsq⟩ := hs (not_lt.mp hdisc)
          have hApos : 0 < sweptA dx dy := by
            rcases lt_or_eq_of_le (show 0 ≤ sweptA dx dy by
                unfold sweptA
                have h1 := mul_self_nonneg dx
                have h2 := mul_self_nonneg dy
                linarith) with h | h
            · exact h
            · exact absurd h.symm hA
          have hD : sweptDisc px py dx dy cx cy R =
              sweptB px py dx dy cx cy * sweptB px py dx dy cx cy -
                4 * sweptA dx dy * sweptC px py cx cy R := rfl
          rw [hD] at hsq
          have hspec := swept_roots_spec (sweptA dx dy) (sweptB px py dx dy cx cy)
            (sweptC px py cx cy R) (sq (sweptDisc px py dx dy cx cy R))
            hApos hs0 hsq t ht
          exact ⟨hspec.1, hspec.2.1, fun _ => ⟨hspec.2.2.1, hspec.2.2.2⟩⟩

/-- C6 witness: a unit circle centred at (2,0) probed from the origin
with displacement (1,0): the discriminant is 4, `Rat.sqrt` returns 2
exactly, and the returned time of impact t = 1 is the smallest root in
[0, 1]. -/
theorem C6_swept_circle_toi_witness :
    0 ≤ (1 : ℚ) ∧ (1 : ℚ) ≤ 1 ∧
      (0 < sweptC 0 0 2 0 1 →
        sweptA 1 0 * (1 : ℚ) ^ 2 + sweptB 0 0 1 0 2 0 * 1 + sweptC 0 0 2 0 1 = 0 ∧
        ∀ u : ℚ, 0 ≤ u → u ≤ 1 →
          sweptA 1 0 * u ^ 2 + sweptB 0 0 1 0 2 0 * u + sweptC 0 0 2 0 1 = 0 →
          (1 : ℚ) ≤ u) := by
  have hd4 : sweptDisc 0 0 1 0 2 0 1 = 4 := by
    norm_num [sweptDisc, sweptA, sweptB, sweptC]
  have hsq4 : Rat.sqrt (sweptDisc 0 0 1 0 2 0 1) = 2 := by
    rw [hd4, show (4 : ℚ) = 2 * 2 by norm_num, Rat.sqrt_eq]
    norm_num
  have hsome : sweptCircleHitT Rat.sqrt 0 0 1 0 2 0 1 = some 1 := by
    rw [sweptCircleHitT_eq, hsq4]
    norm_num [sweptA, sweptB, sweptC, sweptDisc]
  exact (C6_swept_circle_toi Rat.sqrt 0 0 1 0 2 0 1
    (fun _ => ⟨by rw [hsq4]; norm_num, by rw [hsq4, hd4]; norm_num⟩)).2.2 1 hsome

/-- C9 counterexample: `CircleArena.collideCircle` on the arena built
for a 320×320 canvas at scale 1, queried exactly at the centre with a
query radius 200 larger than the arena radius 160, reaches the
`dx / dist` normal computation with divisor `dist = 0` (NaN in JS) —
so the claim that this division never divides by zero is false. -/
theorem C9_counterexample :
    CircleArena.normalDivisionByZero (mkCircleArena 320 320 1) Rat.sqrt 160 160 200 := by
  have h0 : Rat.sqrt 0 = 0 := by
    rw [show (0 : ℚ) = 0 * 0 by norm_num, Rat.sqrt_eq]
    norm_num
  unfold CircleArena.normalDivisionByZero mkCircleArena ARENA_RADIUS_UNITS
  norm_num [h0]

/-- C9 (amended): the geometry kernel and `TJunctionArena.collideCircle`
never divide by zero — every kernel division is guarded by `|| 1` or an
epsilon comparison, a zero-length segment degenerates the capsule test to
the circle test, and every wall segment of a constructed T-junction arena
has positive squared length — but `CircleArena.collideCircle`'s
`dx / dist` is unguarded and only safe when the query radius does not
exceed the arena radius (`limit ≥ 0`). -/
theorem C9_division_guards (A : CircleArena) (sq : ℚ → ℚ) (x y r : ℚ)
    (hlim : 0 ≤ A.radius - r) (hsq0 : sq 0 = 0) :
    ¬ A.normalDivisionByZero sq x y r ∧
    (∀ width height scale : ℚ, 0 < scale →
      ∀ seg ∈ mkTJunctionSegments width height scale, 0 < seg.vLen2) ∧
    (∀ p0x p0y dx dy ax ay rr : ℚ,
      (sweptCircleSegmentTOI sq p0x p0y dx dy ax ay ax ay rr).map SegTOI.t =
        sweptCircleHitT sq p0x p0y dx dy ax ay rr) := by
  refine ⟨?_, ?_, ?_⟩
  · intro h
    unfold CircleArena.normalDivisionByZero at h
    obtain ⟨h1, h2⟩ := h
    rw [h2] at h1
    linarith
  · intro width height scale hs seg hseg
    have hp2 : (0 : ℚ) < scale ^ 2 := pow_pos hs 2
    simp only [mkTJunctionSegments, List.mem_cons, List.not_mem_nil, or_false] at hseg
    rcases hseg with rfl | rfl | rfl | rfl | rfl | rfl | rfl | rfl <;>
      (unfold Segment.vLen2
       norm_num [ARENA_RADIUS_UNITS, min_def]
       try ring_nf
       try nlinarith [hp2])
  · intro p0x p0y dx dy ax ay rr
    have hzero : (ax - ax) * (ax - ax) + (ay - ay) * (ay - ay) = 0 := by ring
    simp only [sweptCircleSegmentTOI, hzero, hsq0, if_pos]
    cases h : sweptCircleHitT sq p0x p0y dx dy ax ay rr <;> simp [h]

/-- C9 witness: on the same constructed arena, a centre query whose
radius 100 stays below the arena radius 160 never reaches a zero
divisor. -/
theorem C9_division_guards_witness :
    ¬ CircleArena.normalDivisionByZero (mkCircleArena 320 320 1) Rat.sqrt 0 0 100 :=
  (C9_division_guards (mkCircleArena 320 320 1) Rat.sqrt 0 0 100
    (by norm_num [mkCircleArena, ARENA_RADIUS_UNITS])
    (by rw [show (0 : ℚ) = 0 * 0 by norm_num, Rat.sqrt_eq]; norm_num)).1

/-- Membership in the per-key granted-time list is membership in the
granted-event list. -/
theorem mem_grantedTimes (s : SimState) (trace : List (Projectile × ℚ))
    (k : HitKey) (t : ℚ) :
    t ∈ grantedTimes s trace k ↔ (k, t) ∈ grantedEvents s trace := by
  unfold grantedTimes
  rw [List.mem_filterMap]
  constructor
  · rintro ⟨⟨k2, t2⟩, hmem, hf⟩
    by_cases hk : k2 = k
    · subst hk
      rw [if_pos rfl] at hf
      injection hf with hf
      subst hf
      exact hmem
    · rw [if_neg hk] at hf
      cases hf
  · intro hmem
    exact ⟨(k, t), hmem, by simp⟩

/-- Two distinct members of a pairwise-related list are related one way
or the other. -/
theorem pairwise_rel_of_mem {R : ℚ → ℚ → Prop} :
    ∀ (l : List ℚ), l.Pairwise R → ∀ a b : ℚ, a ∈ l → b ∈ l → a ≠ b →
      R a b ∨ R b a := by
  intro l
  induction l with
  | nil =>
    intro _ a b ha
    cases ha
  | cons x xs ih =>
    intro hp a b ha hb hne
    obtain ⟨hx, hxs⟩ := List.pairwise_cons.mp hp
    rcases List.mem_cons.mp ha with rfl | ha2
    · rcases List.mem_cons.mp hb with rfl | hb2
      · exact absurd rfl hne
      · exact Or.inl (hx b hb2)
    · rcases List.mem_cons.mp hb with rfl | hb2
      · exact Or.inr (hx a ha2)
      · exact ih hxs a b ha2 hb2 hne

/-- Ledger invariant: along any attempt trace, every granted time on a
key is at least the key's current lock, and consecutive granted times on
the same key are spaced by at least the cooldown. -/
theorem grantedTimes_spec :
    ∀ (trace : List (Projectile × ℚ)) (s : SimState) (k : HitKey),
      (∀ t ∈ grantedTimes s trace k, s.castTargetLocks k ≤ t) ∧
      (grantedTimes s trace k).Pairwise
        (fun t1 t2 => t1 + PER_CAST_TARGET_COOLDOWN * 1000 ≤ t2) := by
  intro trace
  induction trace with
  | nil =>
    intro s k
    constructor
    · intro t ht
      simp [grantedTimes, grantedEvents] at ht
    · simp [grantedTimes, grantedEvents]
  | cons pt rest ih =>
    intro s k
    obtain ⟨p, t⟩ := pt
    have hunfold : grantedEvents s ((p, t) :: rest) =
        (if (tryApplyHit s p t).1 then [(hitKey p, t)] else []) ++
          grantedEvents (tryApplyHit s p t).2 rest := rfl
    by_cases hg : s.castTargetLocks (hitKey p) ≤ t
    · have hfst : (tryApplyHit s p t).1 = true := (tryApplyHit_fst_iff s p t).mpr hg
      have hlocks := tryApplyHit_granted_locks s p t hg
      by_cases hk : hitKey p = k
      · subst hk
        have hGT : grantedTimes s ((p, t) :: rest) (hitKey p) =
            t :: grantedTimes (tryApplyHit s p t).2 rest (hitKey p) := by
          unfold grantedTimes
          rw [hunfold]
          simp [hfst]
        have hlk : (tryApplyHit s p t).2.castTargetLocks (hitKey p) =
            t + PER_CAST_TARGET_COOLDOWN * 1000 := by
          rw [hlocks (hitKey p), if_pos rfl]
        have hC : (0 : ℚ) < PER_CAST_TARGET_COOLDOWN * 1000 := by
          norm_num [PER_CAST_TARGET_COOLDOWN]
        constructor
        · intro u hu
          rw [hGT] at hu
          rcases List.mem_cons.mp hu with rfl | hu2
          · exact hg
          · have hrest := (ih (tryApplyHit s p t).2 (hitKey p)).1 u hu2
            rw [hlk] at hrest
            linarith
        · rw [hGT]
          refine List.Pairwise.cons ?_ (ih _ (hitKey p)).2
          intro u hu
          have hrest := (ih (tryApplyHit s p t).2 (hitKey p)).1 u hu
          rw [hlk] at hrest
          linarith
      · have hGT : grantedTimes s ((p, t) :: rest) k =
            grantedTimes (tryApplyHit s p t).2 rest k := by
          unfold grantedTimes
          rw [hunfold]
          simp [hfst, hk]
        have hlk : (tryApplyHit s p t).2.castTargetLocks k = s.castTargetLocks k := by
          rw [hlocks k, if_neg (fun h => hk h.symm)]
        constructor
        · intro u hu
          rw [hGT] at hu
          have hrest := (ih _ k).1 u hu
          rw [hlk] at hrest
          exact hrest
        · rw [hGT]
          exact (ih _ k).2
    · have hden : tryApplyHit s p t = (false, s) := tryApplyHit_denied s p t hg
      have hGT : grantedTimes s ((p, t) :: rest) k = grantedTimes s rest k := by
        unfold grantedTimes
        rw [hunfold, hden]
        simp
      constructor
      · intro u hu
        rw [hGT] at hu
        exact (ih s k).1 u hu
      · rw [hGT]
        exact (ih s k).2

/-- C1: a hit is granted iff the current time has reached the key's
next-allowed time (default 0 for an unseen key); every grant re-arms the
key to `now + 0.66 s`; consequently any two granted hits on the same
hit-group key at times `t1 < t2` satisfy
`t2 − t1 ≥ PER_CAST_TARGET_COOLDOWN × 1000` milliseconds, for every
attempt trace from every starting state. -/
theorem C1_hit_group_cooldown (s0 : SimState) :
    (∀ (p : Projectile) (now : ℚ),
      ((tryApplyHit s0 p now).1 = true ↔ s0.castTargetLocks (hitKey p) ≤ now) ∧
      (s0.castTargetLocks (hitKey p) ≤ now →
        (tryApplyHit s0 p now).2.castTargetLocks (hitKey p) =
          now + PER_CAST_TARGET_COOLDOWN * 1000)) ∧
    (∀ (trace : List (Projectile × ℚ)) (k : HitKey) (t1 t2 : ℚ),
      (k, t1) ∈ grantedEvents s0 trace → (k, t2) ∈ grantedEvents s0 trace →
      t1 < t2 → PER_CAST_TARGET_COOLDOWN * 1000 ≤ t2 - t1) := by
  constructor
  · intro p now
    refine ⟨tryApplyHit_fst_iff s0 p now, fun h => ?_⟩
    rw [tryApplyHit_granted_locks s0 p now h, if_pos rfl]
  · intro trace k t1 t2 h1 h2 hlt
    have hm1 := (mem_grantedTimes s0 trace k t1).mpr h1
    have hm2 := (mem_grantedTimes s0 trace k t2).mpr h2
    have hpw := (grantedTimes_spec trace s0 k).2
    have hC : (0 : ℚ) < PER_CAST_TARGET_COOLDOWN * 1000 := by
      norm_num [PER_CAST_TARGET_COOLDOWN]
    rcases pairwise_rel_of_mem _ hpw t1 t2 hm1 hm2 (ne_of_lt hlt) with h | h
    · linarith
    · linarith

/-- C1 witness: from the fresh sample state, two attempts on the same key
at 0 ms and 700 ms are both granted, and their spacing 700 ms respects
the 660 ms cooldown. -/
theorem C1_hit_group_cooldown_witness :
    PER_CAST_TARGET_COOLDOWN * 1000 ≤ (700 : ℚ) - 0 := by
  have he : grantedEvents sampleState [(projAtBoss, 0), (projAtBoss, 700)] =
      [(hitKey projAtBoss, 0), (hitKey projAtBoss, 700)] := by
    norm_num [grantedEvents, tryApplyHit, sampleState, PER_CAST_TARGET_COOLDOWN]
  exact (C1_hit_group_cooldown sampleState).2
    [(projAtBoss, 0), (projAtBoss, 700)] (hitKey projAtBoss) 0 700
    (by rw [he]; simp) (by rw [he]; simp) (by norm_num)

/-- One emission produces `1 + whirlwindStages + 2·sealCount` projectiles
(the recorded `projCount`). -/
theorem emitCastProjectiles_projCount (M : JsMath) (s : SimState) (castId : ℕ)
    (now : ℚ) (bri : ℕ) (sc : Option ℕ) (ang : Option (List ℚ)) (inst : ℕ)
    (rand : List ℚ) :
    (emitCastProjectiles M s castId now bri sc ang inst rand).2.projCount =
      1 + s.config.whirlwindStages + sc.getD s.currentSeals * 2 := rfl

/-- An emission only appends projectiles; every other state field is
untouched. -/
theorem emitCastProjectiles_state (M : JsMath) (s : SimState) (castId : ℕ)
    (now : ℚ) (bri : ℕ) (sc : Option ℕ) (ang : Option (List ℚ)) (inst : ℕ)
    (rand : List ℚ) :
    (emitCastProjectiles M s castId now bri sc ang inst rand).1.config = s.config ∧
    (emitCastProjectiles M s castId now bri sc ang inst rand).1.completedCastInstances =
      s.completedCastInstances ∧
    (emitCastProjectiles M s castId now bri sc ang inst rand).1.currentSeals =
      s.currentSeals ∧
    (emitCastProjectiles M s castId now bri sc ang inst rand).1.nextCastId =
      s.nextCastId ∧
    (emitCastProjectiles M s castId now bri sc ang inst rand).1.barrageCastSchedule =
      s.barrageCastSchedule :=
  ⟨rfl, rfl, rfl, rfl, rfl⟩

/-- The salvo-group layout of one emission: the projectiles appended by
`emitCastProjectiles` carry group 0 for the `1 + whirlwindStages` base
projectiles followed by the pair `[i+1, i+1]` for each consumed seal
`i < sealCount`. -/
theorem emitCastProjectiles_salvo (M : JsMath) (s : SimState) (castId : ℕ)
    (now : ℚ) (bri : ℕ) (sc : Option ℕ) (ang : Option (List ℚ)) (inst : ℕ)
    (rand : List ℚ) :
    ((emitCastProjectiles M s castId now bri sc ang inst rand).1.projectiles.drop
        s.projectiles.length).map (fun p => p.salvoGroup) =
      List.replicate (1 + s.config.whirlwindStages) 0 ++
        (List.range (sc.getD s.currentSeals)).flatMap (fun i => [i + 1, i + 1]) := by
  simp only [emitCastProjectiles]
  rw [List.append_assoc, List.drop_left]
  rw [List.map_append, List.map_map, List.map_flatMap]
  congr 1
  refine List.eq_replicate_iff.mpr ⟨by simp, fun b hb => ?_⟩
  obtain ⟨i, _, rfl⟩ := List.mem_map.mp hb
  rfl

/-- `emitCast` registers the instance under the allocated id with the
main emission's projectile count. -/
theorem emitCast_entry (M : JsMath) (s : SimState) (now : ℚ) (rand : List ℚ) :
    (emitCast M s now rand).completedCastInstances s.nextCastId =
      some ⟨0, 1 + s.config.whirlwindStages + s.currentSeals * 2, false⟩ := by
  simp [emitCast, emitCastProjectiles, apply_ite
    (fun st : SimState => st.completedCastInstances s.nextCastId)]

/-- `emitCast` leaves the configuration unchanged. -/
theorem emitCast_config (M : JsMath) (s : SimState) (now : ℚ) (rand : List ℚ) :
    (emitCast M s now rand).config = s.config := by
  simp [emitCast, emitCastProjectiles, apply_ite (fun st : SimState => st.config)]

/-- The schedule produced by `emitCast`: `barrageCount` entries, the
`j`-th due at `now + timeBetweenRepeats·(j+1)·1000` ms with the fresh
cast id `nextCastId + 1 + j`, the owning instance id, repeat index
`j + 1`, the pre-cast seal count and the captured main-cast angles. -/
theorem emitCast_schedule (M : JsMath) (s : SimState) (now : ℚ) (rand : List ℚ) :
    (emitCast M s now rand).barrageCastSchedule =
      s.barrageCastSchedule ++
        (if 0 < s.config.barrageCount then
          (List.range s.config.barrageCount).map (fun (j : ℕ) =>
            ({ time := now + (if s.config.timeBetweenBarrageRepeats = 0 then 0.15
                  else s.config.timeBetweenBarrageRepeats) * ((j : ℚ) + 1) * 1000
               castId := s.nextCastId + 1 + j
               instanceId := s.nextCastId
               barrageRepeatIndex := j + 1
               sealCount := s.currentSeals
               angles := some ((List.range (1 + s.config.whirlwindStages +
                 s.currentSeals * 2)).map (fun i => rand.getD i 0)) } : ScheduledBarrage))
        else []) := by
  by_cases hB : 0 < s.config.barrageCount
  · simp only [emitCast, emitCastProjectiles, hB, if_true, if_pos]
    simp [Nat.add_assoc]
  · simp [emitCast, emitCastProjectiles, hB]

/-- Under an active barrage configuration, `emitCast` advances the cast
id counter past the main cast and all scheduled repeats. -/
theorem emitCast_nextCastId (M : JsMath) (s : SimState) (now : ℚ) (rand : List ℚ)
    (hB : 0 < s.config.barrageCount) :
    (emitCast M s now rand).nextCastId = s.nextCastId + 1 + s.config.barrageCount := by
  simp [emitCast, emitCastProjectiles, hB,
    apply_ite (fun st : SimState => st.nextCastId)]

/-- Every projectile appended by one emission carries the damage
multiplier `(barrage penalty) × (1 + 0.8 × whirlwindStages)`. -/
theorem emitCastProjectiles_dm (M : JsMath) (s : SimState) (castId : ℕ) (now : ℚ)
    (bri : ℕ) (sc : Option ℕ) (ang : Option (List ℚ)) (inst : ℕ) (rand : List ℚ) :
    ∀ p ∈ (emitCastProjectiles M s castId now bri sc ang inst rand).1.projectiles,
      p ∈ s.projectiles ∨
        p.damageMultiplier =
          (if 0 < bri then (0.55 : ℚ) else 1) *
            (1 + (s.config.whirlwindStages : ℚ) * 0.8) := by
  intro p hp
  simp only [emitCastProjectiles, List.append_assoc, List.mem_append,
    List.mem_map, List.mem_flatMap, List.mem_range] at hp
  rcases hp with hold | ⟨i, _, rfl⟩ | ⟨a, _, i, _, rfl⟩
  · exact Or.inl hold
  · exact Or.inr rfl
  · exact Or.inr rfl

/-- Firing a scheduled repeat adds `1 + whirlwindStages + 2·sealCount`
to the owning instance's projectile count and changes neither the
configuration nor the seal counter. -/
theorem fireScheduledBarrage_entry (M : JsMath) (st : SimState)
    (e : ScheduledBarrage) (rand : List ℚ) (en : InstanceEntry)
    (hen : st.completedCastInstances e.instanceId = some en) :
    (fireScheduledBarrage M st e rand).completedCastInstances e.instanceId =
      some ⟨en.hits, en.projCount + (1 + st.config.whirlwindStages + e.sealCount * 2),
        en.completed⟩ ∧
    (fireScheduledBarrage M st e rand).config = st.config := by
  have h1 : ((emitCastProjectiles M st e.castId e.time e.barrageRepeatIndex
      (some e.sealCount) e.angles e.instanceId rand).1).completedCastInstances =
      st.completedCastInstances := rfl
  constructor
  · simp [fireScheduledBarrage, h1, hen, emitCastProjectiles_projCount]
  · simp [fireScheduledBarrage, h1, hen,
      (emitCastProjectiles_state M st e.castId e.time e.barrageRepeatIndex
        (some e.sealCount) e.angles e.instanceId rand).1]

/-- Folding `fireScheduledBarrage` over a list of repeats for one
instance accumulates one emission count per repeat. -/
theorem fire_foldl (M : JsMath) (rand : List ℚ) (n S W : ℕ) :
    ∀ (l : List ScheduledBarrage) (st : SimState) (en : InstanceEntry),
      (∀ e ∈ l, e.instanceId = n ∧ e.sealCount = S) →
      st.config.whirlwindStages = W →
      st.completedCastInstances n = some en →
      ((l.foldl (fun st2 e => fireScheduledBarrage M st2 e rand)
          st).completedCastInstances n =
        some ⟨en.hits, en.projCount + l.length * (1 + W + S * 2), en.completed⟩) ∧
      (l.foldl (fun st2 e => fireScheduledBarrage M st2 e rand) st).config =
        st.config := by
  intro l
  induction l with
  | nil =>
    intro st en _ _ hen
    refine ⟨?_, rfl⟩
    simpa using hen
  | cons e rest ih =>
    intro st en hl hW hen
    obtain ⟨hinst, hseal⟩ := hl e (List.mem_cons_self e rest)
    have hen2 : st.completedCastInstances e.instanceId = some en := by
      rw [hinst]
      exact hen
    have hfe := fireScheduledBarrage_entry M st e rand en hen2
    have hfe1 : (fireScheduledBarrage M st e rand).completedCastInstances n =
        some ⟨en.hits, en.projCount + (1 + W + S * 2), en.completed⟩ := by
      have h := hfe.1
      rw [hinst, hseal, hW] at h
      exact h
    have hcfg : (fireScheduledBarrage M st e rand).config = st.config := hfe.2
    have ihres := ih (fireScheduledBarrage M st e rand)
      ⟨en.hits, en.projCount + (1 + W + S * 2), en.completed⟩
      (fun e2 he2 => hl e2 (List.mem_cons_of_mem _ he2))
      (by rw [hcfg]; exact hW) hfe1
    constructor
    · rw [List.foldl_cons, ihres.1]
      have harith : en.projCount + (1 + W + S * 2) + rest.length * (1 + W + S * 2) =
          en.projCount + (e :: rest).length * (1 + W + S * 2) := by
        rw [List.length_cons]
        ring
      rw [harith]
    · rw [List.foldl_cons, ihres.2, hcfg]

/-- C2: starting from an empty barrage schedule, a cast emitted with
seal count S, whirlwind stages W and barrage count B records
`(1 + W + 2S) × (1 + B)` projectiles on its instance entry once every
scheduled repeat has fired (`tFire` past all scheduled times, the
configuration untouched in between); and every single emission lays its
projectiles out as `1 + W` base projectiles in salvo group 0 followed by
2 projectiles in each salvo group `1..S`. -/
theorem C2_projectile_count_formula (M : JsMath) (s : SimState) (now tFire : ℚ)
    (randA randB : List ℚ)
    (hempty : s.barrageCastSchedule = [])
    (hdue : ∀ e ∈ (emitCast M s now randA).barrageCastSchedule, e.time ≤ tFire) :
    ((processBarrageSchedule M (emitCast M s now randA) tFire
        randB).completedCastInstances s.nextCastId =
      some ⟨0, (1 + s.config.whirlwindStages + 2 * s.currentSeals) *
        (1 + s.config.barrageCount), false⟩) ∧
    (∀ (castId2 : ℕ) (now2 : ℚ) (bri : ℕ) (sc : Option ℕ) (ang : Option (List ℚ))
        (inst : ℕ) (rand2 : List ℚ),
      (((emitCastProjectiles M s castId2 now2 bri sc ang inst rand2).1.projectiles.drop
          s.projectiles.length).map (fun p => p.salvoGroup) =
        List.replicate (1 + s.config.whirlwindStages) 0 ++
          (List.range (sc.getD s.currentSeals)).flatMap (fun i => [i + 1, i + 1])) ∧
      (emitCastProjectiles M s castId2 now2 bri sc ang inst rand2).2.projCount =
        1 + s.config.whirlwindStages + sc.getD s.currentSeals * 2) := by
  refine ⟨?_, fun castId2 now2 bri sc ang inst rand2 =>
    ⟨emitCastProjectiles_salvo M s castId2 now2 bri sc ang inst rand2,
     emitCastProjectiles_projCount M s castId2 now2 bri sc ang inst rand2⟩⟩
  have hsched := emitCast_schedule M s now randA
  rw [hempty, List.nil_append] at hsched
  have hfields : ∀ e ∈ (emitCast M s now randA).barrageCastSchedule,
      e.instanceId = s.nextCastId ∧ e.sealCount = s.currentSeals := by
    intro e he
    rw [hsched] at he
    by_cases hB : 0 < s.config.barrageCount
    · rw [if_pos hB] at he
      obtain ⟨j, _, rfl⟩ := List.mem_map.mp he
      exact ⟨rfl, rfl⟩
    · rw [if_neg hB] at he
      cases he
  have hdue2 : (emitCast M s now randA).barrageCastSchedule.filter
      (fun e => decide (e.time ≤ tFire)) = (emitCast M s now randA).barrageCastSchedule :=
    List.filter_eq_self.mpr (fun e he => decide_eq_true (hdue e he))
  have hrest : (emitCast M s now randA).barrageCastSchedule.filter
      (fun e => ¬ decide (e.time ≤ tFire)) = [] := by
    rw [List.filter_eq_nil_iff]
    intro e he
    simp [hdue e he]
  unfold processBarrageSchedule
  rw [hdue2, hrest]
  have hlen : (emitCast M s now randA).barrageCastSchedule.reverse.length =
      s.config.barrageCount := by
    rw [List.length_reverse, hsched]
    by_cases hB : 0 < s.config.barrageCount
    · rw [if_pos hB, List.length_map, List.length_range]
    · rw [if_neg hB, List.length_nil]
      omega
  have hfold := fire_foldl M randB s.nextCastId s.currentSeals
    s.config.whirlwindStages
    (emitCast M s now randA).barrageCastSchedule.reverse
    { emitCast M s now randA with barrageCastSchedule := [] }
    ⟨0, 1 + s.config.whirlwindStages + s.currentSeals * 2, false⟩
    (fun e he => hfields e (List.mem_reverse.mp he))
    (by
      have := emitCast_config M s now randA
      simp [this])
    (by
      have := emitCast_entry M s now randA
      simpa using this)
  rw [hfold.1, hlen]
  congr 2
  ring

/-- C2 witness: the sample state (W = 1, S = 1, B = 2, repeats due at
150 ms and 300 ms) records (1+1+2)·(1+2) = 12 projectiles on the
instance entry once both repeats have fired by t = 1000 ms. -/
theorem C2_projectile_count_formula_witness :
    (processBarrageSchedule sampleMath (emitCast sampleMath sampleState 0 []) 1000
        []).completedCastInstances sampleState.nextCastId =
      some ⟨0, (1 + sampleState.config.whirlwindStages + 2 * sampleState.currentSeals) *
        (1 + sampleState.config.barrageCount), false⟩ :=
  (C2_projectile_count_formula sampleMath sampleState 0 1000 [] [] rfl
    (by
      intro e he
      rw [emitCast_schedule sampleMath sampleState 0 [],
        show sampleState.barrageCastSchedule = [] from rfl, List.nil_append,
        if_pos (show 0 < sampleState.config.barrageCount by
          norm_num [sampleState, sampleConfig])] at he
      obtain ⟨j, hj, rfl⟩ := List.mem_map.mp he
      rw [List.mem_range] at hj
      have hj1 : (j : ℚ) ≤ 1 := by
        exact_mod_cast Nat.lt_succ_iff.mp hj
      norm_num [sampleState, sampleConfig]
      nlinarith [hj1])).1

/-- C5: with barrage count B > 0 and an empty schedule, `emitCast`
schedules exactly B repeat sub-events: the j-th (j = 0..B−1) fires at
`now + timeBetweenRepeats·(j+1)·1000` ms, carries the fresh cast id
`nextCastId + 1 + j`, the owning instance, repeat index `j+1`, the same
captured angle list and the pre-cast seal count; the cast-id counter
moves past all of them; every main-cast projectile gets damage
multiplier `1 × (1 + 0.8·W)` and every projectile fired by a scheduled
repeat gets `0.55 × (1 + 0.8·W)` — the whirlwind bonus applied
identically. -/
theorem C5_barrage_scheduling (M : JsMath) (s : SimState) (now : ℚ) (rand : List ℚ)
    (hB : 0 < s.config.barrageCount) (hempty : s.barrageCastSchedule = []) :
    ((emitCast M s now rand).barrageCastSchedule =
      (List.range s.config.barrageCount).map (fun (j : ℕ) =>
        ({ time := now + (if s.config.timeBetweenBarrageRepeats = 0 then 0.15
              else s.config.timeBetweenBarrageRepeats) * ((j : ℚ) + 1) * 1000
           castId := s.nextCastId + 1 + j
           instanceId := s.nextCastId
           barrageRepeatIndex := j + 1
           sealCount := s.currentSeals
           angles := some ((List.range (1 + s.config.whirlwindStages +
             s.currentSeals * 2)).map (fun i => rand.getD i 0)) } : ScheduledBarrage))) ∧
    (emitCast M s now rand).nextCastId = s.nextCastId + 1 + s.config.barrageCount ∧
    (∀ p ∈ (emitCast M s now rand).projectiles,
      p ∈ s.projectiles ∨
        p.damageMultiplier = 1 * (1 + (s.config.whirlwindStages : ℚ) * 0.8)) ∧
    (∀ e ∈ (emitCast M s now rand).barrageCastSchedule,
      ∀ (st : SimState) (rand2 : List ℚ), st.config = s.config →
        ∀ p ∈ (fireScheduledBarrage M st e rand2).projectiles,
          p ∈ st.projectiles ∨
            p.damageMultiplier = 0.55 * (1 + (s.config.whirlwindStages : ℚ) * 0.8)) := by
  have hsched : (emitCast M s now rand).barrageCastSchedule =
      (List.range s.config.barrageCount).map (fun (j : ℕ) =>
        ({ time := now + (if s.config.timeBetweenBarrageRepeats = 0 then 0.15
              else s.config.timeBetweenBarrageRepeats) * ((j : ℚ) + 1) * 1000
           castId := s.nextCastId + 1 + j
           instanceId := s.nextCastId
           barrageRepeatIndex := j + 1
           sealCount := s.currentSeals
           angles := some ((List.range (1 + s.config.whirlwindStages +
             s.currentSeals * 2)).map (fun i => rand.getD i 0)) } : ScheduledBarrage)) := by
    rw [emitCast_schedule, hempty, List.nil_append, if_pos hB]
  refine ⟨hsched, emitCast_nextCastId M s now rand hB, ?_, ?_⟩
  · intro p hp
    have hpr : (emitCast M s now rand).projectiles =
        (emitCastProjectiles M
          { s with
              nextCastId := s.nextCastId + 1
              currentInstanceId := some s.nextCastId
              currentCastHits := 0
              completedCastInstances := fun k =>
                if k = s.nextCastId then some ⟨0, 0, false⟩
                else s.completedCastInstances k }
          s.nextCastId now 0 none none s.nextCastId rand).1.projectiles := by
      simp [emitCast, apply_ite (fun st : SimState => st.projectiles)]
    rw [hpr] at hp
    have hdm := emitCastProjectiles_dm M _ s.nextCastId now 0 none none
      s.nextCastId rand p hp
    simpa using hdm
  · intro e he st rand2 hcfg p hp
    rw [hsched] at he
    obtain ⟨j, _, rfl⟩ := List.mem_map.mp he
    have hpr2 : ∀ (e2 : ScheduledBarrage),
        (fireScheduledBarrage M st e2 rand2).projectiles =
          (emitCastProjectiles M st e2.castId e2.time e2.barrageRepeatIndex
            (some e2.sealCount) e2.angles e2.instanceId rand2).1.projectiles := by
      intro e2
      simp [fireScheduledBarrage, apply_ite (fun st2 : SimState => st2.projectiles)]
    rw [hpr2] at hp
    have hdm := emitCastProjectiles_dm M st _ _ _ _ _ _ rand2 p hp
    rcases hdm with h | h
    · exact Or.inl h
    · right
      rw [if_pos (by omega : 0 < j + 1), hcfg] at h
      exact h

/-- C5 witness: on the sample state (B = 2, 0.15 s between repeats,
cast id counter at 1) the emitted schedule is exactly the two repeat
entries with fresh cast ids 2 and 3, repeat indices 1 and 2, the shared
captured angles and the pre-cast seal count. -/
theorem C5_barrage_scheduling_witness :
    (emitCast sampleMath sampleState 0 []).barrageCastSchedule =
      (List.range sampleState.config.barrageCount).map (fun (j : ℕ) =>
        ({ time := 0 + (if sampleState.config.timeBetweenBarrageRepeats = 0 then 0.15
              else sampleState.config.timeBetweenBarrageRepeats) * ((j : ℚ) + 1) * 1000
           castId := sampleState.nextCastId + 1 + j
           instanceId := sampleState.nextCastId
           barrageRepeatIndex := j + 1
           sealCount := sampleState.currentSeals
           angles := some ((List.range (1 + sampleState.config.whirlwindStages +
             sampleState.currentSeals * 2)).map
               (fun i => ([] : List ℚ).getD i 0)) } : ScheduledBarrage)) :=
  (C5_barrage_scheduling sampleMath sampleState 0 []
    (by norm_num [sampleState, sampleConfig]) rfl).1
